import Mathlib

set_option maxRecDepth 200000

/-!
Shallow embedding of the brush BSP core of ericw-tools qbsp
(src/qbsp/brushbsp.cc), together with theorems settling the frozen
claims about it.  Scalars are exact rationals; the C++ source computes
with doubles.  Comparisons of Euclidean lengths against a threshold
are translated to comparisons of squared lengths, an exact
reformulation.  Routines of the repository that are not under src/
(the winding and vector library of common/) are modelled from the
specification and carry a doc comment saying so.
-/

/-- Three-component vector of rationals, embedding qvec3d. -/
structure Vec3 where
  x : ℚ
  y : ℚ
  z : ℚ
deriving DecidableEq

instance : Inhabited Vec3 := ⟨⟨0, 0, 0⟩⟩

/-- Modelled from the spec: componentwise vector addition. -/
def vadd (a b : Vec3) : Vec3 := ⟨a.x + b.x, a.y + b.y, a.z + b.z⟩

/-- Modelled from the spec: componentwise vector subtraction. -/
def vsub (a b : Vec3) : Vec3 := ⟨a.x - b.x, a.y - b.y, a.z - b.z⟩

/-- Modelled from the spec: scalar multiple of a vector. -/
def smul (c : ℚ) (a : Vec3) : Vec3 := ⟨c * a.x, c * a.y, c * a.z⟩

/-- Modelled from the spec: dot product. -/
def qdot (a b : Vec3) : ℚ := a.x * b.x + a.y * b.y + a.z * b.z

/-- Modelled from the spec: cross product. -/
def qcross (a b : Vec3) : Vec3 :=
  ⟨a.y * b.z - a.z * b.y, a.z * b.x - a.x * b.z, a.x * b.y - a.y * b.x⟩

/-- Squared Euclidean length of a vector. -/
def lenSq (a : Vec3) : ℚ := qdot a a

/-- Binary search bracketing the integer square root, structural in
the fuel so that evaluation stays cheap; the invariant is that the
square of lo is at most n and the search narrows hi towards lo. -/
def sqrtGo (n : Nat) : Nat → Nat → Nat → Nat
  | 0, lo, _ => lo
  | fuel + 1, lo, hi =>
    let mid := (lo + hi) / 2
    if mid = lo then lo
    else if mid * mid ≤ n then sqrtGo n fuel mid hi
    else sqrtGo n fuel lo mid

/-- Integer square root, exact on perfect squares. -/
def natSqrt (n : Nat) : Nat := sqrtGo n (n + 2) 0 (n + 1)

/-- Exact rational square root.  The source takes a floating square
root; every place a theorem of this file evaluates it, the argument is
a perfect square of a rational (lengths of cross products parallel to
a rational unit normal), where this value is exact. -/
def ratSqrt (q : ℚ) : ℚ :=
  if q ≤ 0 then 0 else mkRat (Int.ofNat (natSqrt q.num.natAbs)) (natSqrt q.den)

/-- Component of a vector selected by axis index 0, 1, 2. -/
def Vec3.nth (v : Vec3) (i : Nat) : ℚ :=
  if i = 0 then v.x else if i = 1 then v.y else v.z

/-- Update the component of a vector selected by axis index 0, 1, 2. -/
def Vec3.setNth (v : Vec3) (i : Nat) (q : ℚ) : Vec3 :=
  if i = 0 then ⟨q, v.y, v.z⟩ else if i = 1 then ⟨v.x, q, v.z⟩ else ⟨v.x, v.y, q⟩

/-- Plane type tag, embedding plane_type_t of the source. -/
inductive plane_type_t where
  | PLANE_X
  | PLANE_Y
  | PLANE_Z
  | PLANE_ANYX
  | PLANE_ANYY
  | PLANE_ANYZ
deriving DecidableEq

instance : Inhabited plane_type_t := ⟨.PLANE_X⟩

/-- Numeric value of the plane type tag, as in the C++ enum. -/
def plane_type_t.toNat : plane_type_t → Nat
  | .PLANE_X => 0
  | .PLANE_Y => 1
  | .PLANE_Z => 2
  | .PLANE_ANYX => 3
  | .PLANE_ANYY => 4
  | .PLANE_ANYZ => 5

/-- The comparison type less-than PLANE_ANYX of the source: the tag is
one of the three axial tags, and its numeric value is the axis. -/
def plane_type_t.isAxial (t : plane_type_t) : Bool := t.toNat < 3

/-- Oriented plane, embedding qplane3d. -/
structure qplane3d where
  normal : Vec3
  dist : ℚ
deriving DecidableEq

instance : Inhabited qplane3d := ⟨⟨⟨0, 0, 0⟩, 0⟩⟩

/-- Modelled from the spec: signed distance of a point from a plane. -/
def qplane3d.distance_to (p : qplane3d) (v : Vec3) : ℚ := qdot p.normal v - p.dist

/-- Plane with its derived type tag, embedding qbsp_plane_t. -/
structure qbsp_plane_t where
  p : qplane3d
  ptype : plane_type_t
deriving DecidableEq

instance : Inhabited qbsp_plane_t := ⟨⟨default, default⟩⟩

/-- Accessor mirroring qbsp_plane_t get_normal. -/
def qbsp_plane_t.get_normal (pl : qbsp_plane_t) : Vec3 := pl.p.normal

/-- Accessor mirroring qbsp_plane_t get_dist. -/
def qbsp_plane_t.get_dist (pl : qbsp_plane_t) : ℚ := pl.p.dist

/-- Accessor mirroring qbsp_plane_t get_type. -/
def qbsp_plane_t.get_type (pl : qbsp_plane_t) : plane_type_t := pl.ptype

/-- Signed distance from a tagged plane. -/
def qbsp_plane_t.distance_to (pl : qbsp_plane_t) (v : Vec3) : ℚ := pl.p.distance_to v

/-- Axis-aligned bounding box, embedding aabb3d. -/
structure aabb3d where
  mins : Vec3
  maxs : Vec3
deriving DecidableEq

instance : Inhabited aabb3d := ⟨⟨default, default⟩⟩

/-- Corner selector mirroring aabb operator[]: index 0 is mins, 1 is maxs. -/
def aabb3d.idx (b : aabb3d) (i : Nat) : Vec3 := if i = 0 then b.mins else b.maxs

/-- Modelled from the spec: box volume, the product of the three extents. -/
def aabb3d.volume (b : aabb3d) : ℚ :=
  (b.maxs.x - b.mins.x) * (b.maxs.y - b.mins.y) * (b.maxs.z - b.mins.z)

/-- Modelled from the spec: true when the boxes do not strictly
overlap, that is they are separated or merely touch on some axis. -/
def aabb3d.disjoint_or_touching (a b : aabb3d) : Bool :=
  (decide (a.maxs.x ≤ b.mins.x) || decide (b.maxs.x ≤ a.mins.x)) ||
  (decide (a.maxs.y ≤ b.mins.y) || decide (b.maxs.y ≤ a.mins.y)) ||
  (decide (a.maxs.z ≤ b.mins.z) || decide (b.maxs.z ≤ a.mins.z))

/-- Winding: convex planar polygon as an ordered vertex list. -/
abbrev winding := List Vec3

/-- Modelled from the spec: split a winding by a plane into a front
part and a back part, in the way of the ClipWindingEpsilon routine the
repository inherits.  Vertices within eps of the plane count as on the
plane and enter both parts; when no vertex is strictly in front
(respectively strictly behind), the whole winding is returned as the
back (respectively front) part and the other part is absent. -/
def windingClip (w : winding) (split : qplane3d) (eps : ℚ) :
    Option winding × Option winding :=
  let dists := w.map fun p => qdot split.normal p - split.dist
  let hasFront := dists.any fun d => decide (d > eps)
  let hasBack := dists.any fun d => decide (d < -eps)
  if !hasFront then (none, some w)
  else if !hasBack then (some w, none)
  else
    let n := w.length
    let step := fun (acc : winding × winding) (i : Nat) =>
      let p1 := w.getD i default
      let d1 := dists.getD i 0
      let p2 := w.getD ((i + 1) % n) default
      let d2 := dists.getD ((i + 1) % n) 0
      if d1 > eps then
        let f := acc.1 ++ [p1]
        if d2 < -eps then
          let t := d1 / (d1 - d2)
          let mid := vadd p1 (smul t (vsub p2 p1))
          (f ++ [mid], acc.2 ++ [mid])
        else (f, acc.2)
      else if d1 < -eps then
        let b := acc.2 ++ [p1]
        if d2 > eps then
          let t := d1 / (d1 - d2)
          let mid := vadd p1 (smul t (vsub p2 p1))
          (acc.1 ++ [mid], b ++ [mid])
        else (acc.1, b)
      else (acc.1 ++ [p1], acc.2 ++ [p1])
    let fb := (List.range n).foldl step ([], [])
    (some fb.1, some fb.2)

/-- Modelled from the spec: clip a winding keeping the back part. -/
def windingClipBack (w : winding) (split : qplane3d) : Option winding :=
  (windingClip w split 0).2

/-- Modelled from the spec: flip a winding by reversing its vertices. -/
def windingFlip (w : winding) : winding := w.reverse

/-- Modelled from the spec: polygon area as the sum of the fan
triangle areas, each half the length of a cross product. -/
def windingArea (w : winding) : ℚ :=
  (List.range w.length).foldl
    (fun acc i =>
      if i < 2 then acc
      else
        acc + (1 / 2) * ratSqrt (lenSq (qcross
          (vsub (w.getD (i - 1) default) (w.getD 0 default))
          (vsub (w.getD i default) (w.getD 0 default))))) 0

/-- The BOGUS_RANGE constant of qbsp.hh. -/
def BOGUS_RANGE : ℚ := 65536

/-- Modelled from the spec, section 4.3: a square of side twice
BOGUS_RANGE centred on the projection of the origin onto the plane and
oriented with the plane, built in the way of the Quake tools: take the
world axis furthest from the normal direction, orthogonalise it
against the normal, and span the square with that up vector and its
cross product with the normal. -/
def BaseWindingForPlane (p : qplane3d) : winding :=
  let n := p.normal
  let axIdx : Nat :=
    if |n.y| > |n.x| then (if |n.z| > |n.y| then 2 else 1)
    else (if |n.z| > |n.x| then 2 else 0)
  let vup0 : Vec3 := if axIdx = 2 then ⟨1, 0, 0⟩ else ⟨0, 0, 1⟩
  let v := qdot vup0 n
  let vup1 := vadd vup0 (smul (-v) n)
  let vup := smul (1 / ratSqrt (lenSq vup1)) vup1
  let org := smul p.dist n
  let vright := qcross vup n
  let vupS := smul BOGUS_RANGE vup
  let vrightS := smul BOGUS_RANGE vright
  [vadd (vsub org vrightS) vupS,
   vadd (vadd org vrightS) vupS,
   vsub (vadd org vrightS) vupS,
   vsub (vsub org vrightS) vupS]

/-- Texinfo flags looked up through side_t get_texinfo. -/
structure texflags_t where
  is_hint : Bool
  is_hintskip : Bool
deriving DecidableEq

instance : Inhabited texflags_t := ⟨⟨false, false⟩⟩

/-- The compile-wide map state the source reaches through the global
map: the plane registry (a dense table where a plane and its flip
occupy adjacent indices p and p ^^^ 1), the texinfo table, the skip
texinfo index and the total brush count. -/
structure mapdata_t where
  planes : List qbsp_plane_t
  texinfos : List texflags_t
  skip_texinfo : Nat
  total_brushes : Nat
deriving DecidableEq

/-- Registry lookup mirroring map.get_plane. -/
def mapdata_t.get_plane (m : mapdata_t) (i : Nat) : qbsp_plane_t := m.planes.getD i default

/-- Texinfo lookup mirroring side_t get_texinfo. -/
def mapdata_t.get_texinfo (m : mapdata_t) (i : Nat) : texflags_t := m.texinfos.getD i default

/-- The planenum with its low bit cleared, mirroring planenum and not 1. -/
def posNum (n : Nat) : Nat := 2 * (n / 2)

/-- One face of a brush, embedding side_t. -/
structure side_t where
  planenum : Nat
  w : winding
  texinfo : Nat
  bevel : Bool
  onnode : Bool
  tested : Bool
  visible : Bool
deriving DecidableEq

/-- Visibility test mirroring side_t is_visible. -/
def side_t.is_visible (s : side_t) : Bool := s.visible

/-- Plane of a side in its stored orientation, mirroring side_t get_plane. -/
def side_t.get_plane (m : mapdata_t) (s : side_t) : qbsp_plane_t := m.get_plane s.planenum

/-- Plane of a side in positive orientation, mirroring side_t get_positive_plane. -/
def side_t.get_positive_plane (m : mapdata_t) (s : side_t) : qbsp_plane_t :=
  m.get_plane (posNum s.planenum)

/-- Convex brush, embedding bspbrush_t.  The C++ pointer fields
original_ptr and mapbrush are outside a shallow value embedding; the
contents word the source reads through mapbrush (mapbrush contents)
is kept as the field mapcontents.  Contents words are abstract
naturals interpreted only through a gamedef_t. -/
structure bspbrush_t where
  sides : List side_t
  bounds : aabb3d
  contents : Nat
  mapcontents : Nat
  side : Nat
  testside : Nat
deriving DecidableEq

instance : Inhabited bspbrush_t := ⟨⟨[], default, 0, 0, 0, 0⟩⟩

/-- The injected target-game trait, embedding the contents operations
the core calls (section 6 of the spec). -/
structure gamedef_t where
  empty_contents : Nat
  combine_contents : Nat → Nat → Nat
  is_any_detail : Nat → Bool
  is_solid : Nat → Bool

/-- The injected configuration options the core reads. -/
structure options_t where
  worldextent : ℚ
  microvolume : ℚ
  maxnodesize : ℚ
  midsplitbrushfraction : ℚ
  epsilon : ℚ
deriving DecidableEq

/-- The statistics counters of bspstats_t that the embedded routines
touch. -/
structure bspstats_t where
  c_midsplit : Nat
  c_nonvis : Nat
  c_qbsp3 : Nat
  c_bogus : Nat
  c_brushesremoved : Nat
  c_brushesonesided : Nat
  c_tinyvolumes : Nat
deriving DecidableEq

/-- Statistics with every counter zero. -/
def stats0 : bspstats_t := ⟨0, 0, 0, 0, 0, 0, 0⟩

/-- The plane side bit for the front side. -/
def PSIDE_FRONT : Nat := 1

/-- The plane side bit for the back side. -/
def PSIDE_BACK : Nat := 2

/-- Both plane side bits. -/
def PSIDE_BOTH : Nat := 3

/-- The facing bit, OR-ed in when a brush side lies on the plane. -/
def PSIDE_FACING : Nat := 4

/-- The box-on-plane-side epsilon of brushbsp.cc. -/
def PLANESIDE_EPSILON : ℚ := 1 / 1000

/-- WindingIsTiny of brushbsp.cc: true when fewer than three edges
exceed the snap threshold.  The source compares edge length with the
threshold; here squared length is compared with the squared threshold,
an exact reformulation. -/
def WindingIsTiny (w : winding) (size : ℚ) : Bool :=
  let n := w.length
  let edges := (List.range n).foldl
    (fun edges i =>
      let delta := vsub (w.getD ((i + 1) % n) default) (w.getD i default)
      if lenSq delta > size * size then edges + 1 else edges) 0
  edges < 3

/-- WindingIsHuge of brushbsp.cc: some vertex component exceeds the
configured world extent. -/
def WindingIsHuge (opts : options_t) (w : winding) : Bool :=
  w.any fun p => decide (|p.x| > opts.worldextent) || decide (|p.y| > opts.worldextent)
    || decide (|p.z| > opts.worldextent)

/-- BoxOnPlaneSide of brushbsp.cc lines 160-193: classify a bounding
box against a plane, returning an OR of PSIDE_FRONT and PSIDE_BACK. -/
def BoxOnPlaneSide (bounds : aabb3d) (plane : qbsp_plane_t) : Nat :=
  if plane.get_type.isAxial then
    let a := plane.get_type.toNat
    (if bounds.maxs.nth a > plane.get_dist + PLANESIDE_EPSILON then PSIDE_FRONT else 0) |||
    (if bounds.mins.nth a < plane.get_dist - PLANESIDE_EPSILON then PSIDE_BACK else 0)
  else
    let c0 : Vec3 := ⟨if plane.get_normal.x < 0 then bounds.mins.x else bounds.maxs.x,
                      if plane.get_normal.y < 0 then bounds.mins.y else bounds.maxs.y,
                      if plane.get_normal.z < 0 then bounds.mins.z else bounds.maxs.z⟩
    let c1 : Vec3 := ⟨if plane.get_normal.x < 0 then bounds.maxs.x else bounds.mins.x,
                      if plane.get_normal.y < 0 then bounds.maxs.y else bounds.mins.y,
                      if plane.get_normal.z < 0 then bounds.maxs.z else bounds.mins.z⟩
    let dist1 := qdot plane.get_normal c0 - plane.get_dist
    let dist2 := qdot plane.get_normal c1 - plane.get_dist
    (if dist1 ≥ PLANESIDE_EPSILON then PSIDE_FRONT else 0) |||
    (if dist2 < PLANESIDE_EPSILON then PSIDE_BACK else 0)

/-- The leading corner of the non-axial branch of BoxOnPlaneSide. -/
def boxLeadingCorner (bounds : aabb3d) (plane : qbsp_plane_t) : Vec3 :=
  ⟨if plane.get_normal.x < 0 then bounds.mins.x else bounds.maxs.x,
   if plane.get_normal.y < 0 then bounds.mins.y else bounds.maxs.y,
   if plane.get_normal.z < 0 then bounds.mins.z else bounds.maxs.z⟩

/-- The trailing corner of the non-axial branch of BoxOnPlaneSide. -/
def boxTrailingCorner (bounds : aabb3d) (plane : qbsp_plane_t) : Vec3 :=
  ⟨if plane.get_normal.x < 0 then bounds.maxs.x else bounds.mins.x,
   if plane.get_normal.y < 0 then bounds.maxs.y else bounds.mins.y,
   if plane.get_normal.z < 0 then bounds.maxs.z else bounds.mins.z⟩

/-- Result record of TestBrushToPlanenum: the side classification, the
split count, the hint split flag, and the epsilonbrush accumulator
after the call (the source increments the callers counter through a
pointer and never resets it, while numsplits and hintsplit are reset
at entry). -/
structure testresult_t where
  s : Nat
  numsplits : Nat
  hintsplit : Bool
  epsilonbrush : Nat
deriving DecidableEq

/-- The first loop of TestBrushToPlanenum (brushbsp.cc lines 263-271):
when some side of the brush uses the plane or its flip, the side is
known for sure. -/
def facingCheck (sides : List side_t) (planenum : Nat) : Option Nat :=
  match sides with
  | [] => none
  | s :: rest =>
    if s.planenum = planenum then some (PSIDE_BACK ||| PSIDE_FACING)
    else if s.planenum = planenum ^^^ 1 then some (PSIDE_FRONT ||| PSIDE_FACING)
    else facingCheck rest planenum

/-- The split-counting loop of TestBrushToPlanenum (brushbsp.cc lines
280-319), entered only when the box test straddles: per-side vertex
distances against the coarse 0.1 threshold, returning the running
d_front and d_back maxima along with numsplits and hintsplit. -/
def countSplits (m : mapdata_t) (sides : List side_t) (plane : qbsp_plane_t) :
    ℚ × ℚ × Nat × Bool :=
  sides.foldl
    (fun acc side =>
      if side.onnode then acc
      else if !side.is_visible then acc
      else if side.w.isEmpty then acc
      else
        let inner := side.w.foldl
          (fun (st : ℚ × ℚ × Bool × Bool) point =>
            let d := qdot point plane.get_normal - plane.get_dist
            let dfront := if d > st.1 then d else st.1
            let dback := if d < st.2.1 then d else st.2.1
            let fr := st.2.2.1 || decide (d > 1 / 10)
            let ba := st.2.2.2 || decide (d < -(1 / 10))
            (dfront, dback, fr, ba)) (acc.1, acc.2.1, false, false)
        let numsplits :=
          if inner.2.2.1 && inner.2.2.2 && !(m.get_texinfo side.texinfo).is_hintskip
          then acc.2.2.1 + 1 else acc.2.2.1
        let hintsplit :=
          if inner.2.2.1 && inner.2.2.2 && !(m.get_texinfo side.texinfo).is_hintskip
             && (m.get_texinfo side.texinfo).is_hint
          then true else acc.2.2.2
        (inner.1, inner.2.1, numsplits, hintsplit))
    (0, 0, 0, false)

/-- TestBrushToPlanenum of brushbsp.cc lines 253-323.  The flag
counting stands for the three count pointers being non-null; the
epsilonbrush accumulator is passed in and returned, mirroring the
increment-only pointer. -/
def TestBrushToPlanenum (m : mapdata_t) (brush : bspbrush_t) (planenum : Nat)
    (counting : Bool) (epsIn : Nat) : testresult_t :=
  match facingCheck brush.sides planenum with
  | some s => ⟨s, 0, false, epsIn⟩
  | none =>
    let plane := m.get_plane planenum
    let s := BoxOnPlaneSide brush.bounds plane
    if s ≠ PSIDE_BOTH then ⟨s, 0, false, epsIn⟩
    else if counting then
      let r := countSplits m brush.sides plane
      let eps :=
        if (r.1 > 0 && r.1 < 1) || (r.2.1 < 0 && r.2.1 > -1) then epsIn + 1 else epsIn
      ⟨s, r.2.2.1, r.2.2.2, eps⟩
    else ⟨s, 0, false, epsIn⟩

/-- Side tag of BrushMostlyOnSide. -/
inductive planeside_t where
  | SIDE_FRONT
  | SIDE_BACK
deriving DecidableEq

/-- BrushMostlyOnSide of brushbsp.cc lines 406-424: the side of the
largest absolute vertex distance, front winning ties. -/
def BrushMostlyOnSide (brush : bspbrush_t) (plane : qplane3d) : planeside_t :=
  (brush.sides.foldl
    (fun (acc : ℚ × planeside_t) face =>
      face.w.foldl
        (fun (a : ℚ × planeside_t) p =>
          let d := qdot p plane.normal - plane.dist
          let a1 := if d > a.1 then (d, planeside_t.SIDE_FRONT) else a
          if -d > a1.1 then (-d, planeside_t.SIDE_BACK) else a1)
        acc)
    (0, planeside_t.SIDE_FRONT)).2

/-- BrushVolume of brushbsp.cc lines 118-149: pick the first vertex of
the last side that has one as the corner, then sum the signed cone
volumes over all faces. -/
def BrushVolume (m : mapdata_t) (brush : bspbrush_t) : ℚ :=
  let corner := brush.sides.foldl
    (fun acc s => if s.w.length > 0 then some (s.w.getD 0 default) else acc) none
  match corner with
  | none => 0
  | some c =>
    (brush.sides.foldl
      (fun acc s =>
        if s.w.isEmpty then acc
        else
          let pl := s.get_plane m
          acc + (-(qdot c pl.get_normal - pl.get_dist)) * windingArea s.w) 0) / 3

/-- Modelled from the spec, section 3: the tight bounding box of all
winding vertices of the sides, absent when there is no vertex. -/
def windingBoundsOf (sides : List side_t) : Option aabb3d :=
  sides.foldl
    (fun acc s =>
      s.w.foldl
        (fun (a : Option aabb3d) p =>
          match a with
          | none => some ⟨p, p⟩
          | some bb => some ⟨⟨min bb.mins.x p.x, min bb.mins.y p.y, min bb.mins.z p.z⟩,
                             ⟨max bb.maxs.x p.x, max bb.maxs.y p.y, max bb.maxs.z p.z⟩⟩)
        acc)
    none

/-- Modelled from the spec: bspbrush_t update_bounds recomputes the
bounds from the winding vertices, failing when there are none. -/
def update_bounds (b : bspbrush_t) : Option bspbrush_t :=
  (windingBoundsOf b.sides).map fun bb => { b with bounds := bb }

/-- The d_front maximum of the SplitBrush point check (brushbsp.cc
lines 442-451): largest positive vertex distance, zero floor. -/
def splitDFront (brush : bspbrush_t) (split : qplane3d) : ℚ :=
  brush.sides.foldl
    (fun acc face =>
      face.w.foldl
        (fun a p =>
          let d := qdot p split.normal - split.dist
          if d > 0 ∧ d > a then d else a) acc)
    0

/-- The d_back minimum of the SplitBrush point check: most negative
vertex distance, zero ceiling. -/
def splitDBack (brush : bspbrush_t) (split : qplane3d) : ℚ :=
  brush.sides.foldl
    (fun acc face =>
      face.w.foldl
        (fun a p =>
          let d := qdot p split.normal - split.dist
          if d < 0 ∧ d < a then d else a) acc)
    0

/-- The dividing winding of SplitBrush (brushbsp.cc lines 464-471):
the base winding of the split plane clipped behind every side plane of
the brush, absent as soon as a clip consumes it. -/
def dividingWinding (m : mapdata_t) (brush : bspbrush_t) (split : qplane3d) :
    Option winding :=
  brush.sides.foldl
    (fun wo face =>
      match wo with
      | none => none
      | some w => windingClipBack w (face.get_plane m).p)
    (some (BaseWindingForPlane split))

/-- The side-splitting loop of SplitBrush (brushbsp.cc lines 501-525):
clip every side winding by the split plane with zero epsilon and give
each non-empty part to the matching half. -/
def splitBrushSides (brush : bspbrush_t) (split : qplane3d) :
    List side_t × List side_t :=
  brush.sides.foldl
    (fun (acc : List side_t × List side_t) face =>
      let cw := windingClip face.w split 0
      let acc0 := match cw.1 with
        | some fw => acc.1 ++ [{ face with w := fw }]
        | none => acc.1
      let acc1 := match cw.2 with
        | some bw => acc.2 ++ [{ face with w := bw }]
        | none => acc.2
      (acc0, acc1))
    ([], [])

/-- Validation of one half in SplitBrush (brushbsp.cc lines 529-548):
recompute the bounds, flag the half bogus when that fails or the new
bounds leave the world extent, and drop it when it is bogus or has
fewer than three sides.  Returns the surviving half (with updated
bounds) and whether c_bogus is incremented. -/
def checkHalf (opts : options_t) (r : bspbrush_t) : Option bspbrush_t × Bool :=
  match update_bounds r with
  | none => (none, true)
  | some r2 =>
    if r2.bounds.mins.x < -opts.worldextent ∨ r2.bounds.maxs.x > opts.worldextent
       ∨ r2.bounds.mins.y < -opts.worldextent ∨ r2.bounds.maxs.y > opts.worldextent
       ∨ r2.bounds.mins.z < -opts.worldextent ∨ r2.bounds.maxs.z > opts.worldextent
    then (none, true)
    else if r2.sides.length < 3 then (none, false)
    else (some r2, false)

/-- Outcome of the SplitBrush validation step: either the routine
returns at once with the given pair and statistics, or it proceeds to
the dividing-face step with the two surviving halves. -/
inductive splitcheck_t where
  | finished (front back : Option bspbrush_t) (stats : bspstats_t)
  | proceed (front back : bspbrush_t) (stats : bspstats_t)
deriving DecidableEq

/-- The validation step of SplitBrush (brushbsp.cc lines 529-564):
drop invalid halves; when both drop count c_brushesremoved and return
nothing, when exactly one drops count c_brushesonesided and return the
original unsplit brush on the surviving side. -/
def splitBrushValidate (opts : options_t) (brush : bspbrush_t) (r0 r1 : bspbrush_t)
    (stats : bspstats_t) : splitcheck_t :=
  let h0 := checkHalf opts r0
  let h1 := checkHalf opts r1
  let st := { stats with c_bogus := stats.c_bogus
    + (if h0.2 then 1 else 0) + (if h1.2 then 1 else 0) }
  match h0.1, h1.1 with
  | none, none =>
    .finished none none { st with c_brushesremoved := st.c_brushesremoved + 1 }
  | some _, none =>
    .finished (some brush) none { st with c_brushesonesided := st.c_brushesonesided + 1 }
  | none, some _ =>
    .finished none (some brush) { st with c_brushesonesided := st.c_brushesonesided + 1 }
  | some a, some b => .proceed a b st

/-- An empty half as SplitBrush starts it (brushbsp.cc lines 492-499):
contents words copied from the brush being split, no sides yet.  The
C++ pointer fields are outside the embedding. -/
def emptyHalf (brush : bspbrush_t) : bspbrush_t :=
  { sides := [], bounds := default, contents := brush.contents,
    mapcontents := brush.mapcontents, side := 0, testside := 0 }

/-- The dividing face appended to one half (brushbsp.cc lines 566-583):
planenum is the split plane index XOR i XOR 1, the texinfo is skip,
onnode is set, and the front half receives the flipped midwinding. -/
def midFace (m : mapdata_t) (planenum i : Nat) (midwinding : winding) : side_t :=
  { planenum := planenum ^^^ i ^^^ 1,
    w := if i = 0 then windingFlip midwinding else midwinding,
    texinfo := m.skip_texinfo,
    bevel := false, onnode := true, tested := false, visible := false }

/-- SplitBrush of brushbsp.cc lines 436-599.  Differences to the
source that cannot enter a value embedding: the huge-winding warning
only logs and is omitted; original_ptr and mapbrush bookkeeping are
pointer graph fields and are omitted.  The pair is (front, back). -/
def SplitBrush (m : mapdata_t) (opts : options_t) (brush : bspbrush_t)
    (planenum : Nat) (stats : bspstats_t) :
    (Option bspbrush_t × Option bspbrush_t) × bspstats_t :=
  let split := (m.get_plane planenum).p
  if splitDFront brush split < 1 / 10 then ((none, some brush), stats)
  else if splitDBack brush split > -(1 / 10) then ((some brush, none), stats)
  else
    let wOpt := dividingWinding m brush split
    if wOpt.elim true (fun w => WindingIsTiny w (1 / 5)) then
      match BrushMostlyOnSide brush split with
      | .SIDE_FRONT => ((some brush, none), stats)
      | .SIDE_BACK => ((none, some brush), stats)
    else
      let midwinding := wOpt.getD []
      let halves := splitBrushSides brush split
      let r0 := { emptyHalf brush with sides := halves.1 }
      let r1 := { emptyHalf brush with sides := halves.2 }
      match splitBrushValidate opts brush r0 r1 stats with
      | .finished f b st => ((f, b), st)
      | .proceed a b st =>
        let a2 := { a with sides := a.sides ++ [midFace m planenum 0 midwinding] }
        let b2 := { b with sides := b.sides ++ [midFace m planenum 1 midwinding] }
        let fr :=
          if BrushVolume m a2 < opts.microvolume then (none, true) else (some a2, false)
        let ba :=
          if BrushVolume m b2 < opts.microvolume then (none, true) else (some b2, false)
        let st2 := { st with c_tinyvolumes := st.c_tinyvolumes
          + (if fr.2 then 1 else 0) + (if ba.2 then 1 else 0) }
        ((fr.1, ba.1), st2)

/-- The node record of the builder, embedding the node_t fields the
embedded routines read and write.  Children and parent are indices
into the node list of a tree_t. -/
structure node_t where
  bounds : aabb3d
  planenum : Option Nat
  children : Option (Nat × Nat)
  parent : Option Nat
  is_leaf : Bool
  contents : Option Nat
  volume : Option bspbrush_t
  detail_separator : Bool
deriving DecidableEq

/-- The tree record: an arena of nodes, the head node index and the
overall bounds. -/
structure tree_t where
  nodes : List node_t
  headnode : Nat
  bounds : aabb3d
deriving DecidableEq

/-- CheckPlaneAgainstVolume of brushbsp.cc lines 610-617: the plane is
good when splitting a copy of the node volume yields both halves.  The
statistics increments of the trial split do not feed back into any
control flow and are dropped; a node without a volume cannot be
split. -/
def CheckPlaneAgainstVolume (m : mapdata_t) (opts : options_t) (planenum : Nat)
    (node : node_t) : Bool :=
  match node.volume with
  | none => false
  | some vol =>
    let r := SplitBrush m opts vol planenum stats0
    r.1.1.isSome && r.1.2.isSome

/-- The per-axis body of the non-axial branch of DivideBounds
(brushbsp.cc lines 639-675): clamp the intersection interval of the
plane with the box on axis a and tighten the front and back bounds. -/
def divideBoundsAxis (in_bounds : aabb3d) (split : qbsp_plane_t) (a : Nat)
    (fb : aabb3d × aabb3d) : aabb3d × aabb3d :=
  if |split.get_normal.nth a| < 1 / 1000000 then fb
  else
    let b := (a + 1) % 3
    let c := (a + 2) % 3
    let corners := [(0, 0), (0, 1), (1, 0), (1, 1)]
    let sm := corners.foldl
      (fun (sm : ℚ × ℚ) (ij : Nat × Nat) =>
        let corner0 : Vec3 := (((default : Vec3).setNth b ((in_bounds.idx ij.1).nth b)).setNth
          c ((in_bounds.idx ij.2).nth c)).setNth a (in_bounds.mins.nth a)
        let dist1 := split.distance_to corner0
        let corner1 := corner0.setNth a (in_bounds.maxs.nth a)
        let dist2 := split.distance_to corner1
        let mid := (in_bounds.maxs.nth a - in_bounds.mins.nth a) * (dist1 / (dist1 - dist2))
          + in_bounds.mins.nth a
        (max (min mid sm.1) (in_bounds.mins.nth a),
         min (max mid sm.2) (in_bounds.maxs.nth a)))
      (in_bounds.maxs.nth a, in_bounds.mins.nth a)
    if split.get_normal.nth a > 0 then
      (⟨fb.1.mins.setNth a sm.1, fb.1.maxs⟩, ⟨fb.2.mins, fb.2.maxs.setNth a sm.2⟩)
    else
      (⟨fb.2.mins.setNth a sm.1, fb.2.maxs⟩, ⟨fb.1.mins, fb.1.maxs.setNth a sm.2⟩).swap

/-- DivideBounds of brushbsp.cc lines 625-676: split a bounding box by
a plane into front and back bounds that each contain the matching
portion of the box; non-axial halves may overlap. -/
def DivideBounds (in_bounds : aabb3d) (split : qbsp_plane_t) : aabb3d × aabb3d :=
  if split.get_type.isAxial then
    let a := split.get_type.toNat
    (⟨in_bounds.mins.setNth a split.get_dist, in_bounds.maxs⟩,
     ⟨in_bounds.mins, in_bounds.maxs.setNth a split.get_dist⟩)
  else
    [0, 1, 2].foldl (fun fb a => divideBoundsAxis in_bounds split a fb)
      (in_bounds, in_bounds)

/-- SplitPlaneMetric of brushbsp.cc lines 678-687: the absolute volume
difference of the divided bounds. -/
def SplitPlaneMetric (p : qbsp_plane_t) (bounds : aabb3d) : ℚ :=
  let fb := DivideBounds bounds p
  |fb.1.volume - fb.2.volume|

/-- Running best candidates of ChooseMidPlaneFromList: the best axial
candidate and the best overall candidate, each a metric with the
positive plane index.  The source seeds the metrics with VECT_MAX;
an absent option stands for that sentinel. -/
structure midbest_t where
  axial : Option (ℚ × Nat)
  any : Option (ℚ × Nat)
deriving DecidableEq

/-- Strict improvement update against an optional running best. -/
def betterMid (cur : Option (ℚ × Nat)) (metric : ℚ) (pn : Nat) : Option (ℚ × Nat) :=
  match cur with
  | none => some (metric, pn)
  | some best => if metric < best.1 then some (metric, pn) else cur

/-- The per-side body of ChooseMidPlaneFromList (brushbsp.cc lines
704-735): skip bevel and onnode sides, reject candidates whose plane
does not cut the node volume, and track the best metric overall and
the best metric among axial planes. -/
def midCandStep (m : mapdata_t) (opts : options_t) (node : node_t)
    (best : midbest_t) (side : side_t) : midbest_t :=
  if side.bevel then best
  else if side.onnode then best
  else
    let pn := posNum side.planenum
    let plane := side.get_positive_plane m
    if !CheckPlaneAgainstVolume m opts pn node then best
    else
      let metric := SplitPlaneMetric plane node.bounds
      let best1 := { best with any := betterMid best.any metric pn }
      if plane.get_type.isAxial then
        { best1 with axial := betterMid best1.axial metric pn }
      else best1

/-- ChooseMidPlaneFromList of brushbsp.cc lines 696-740: fold the
candidate update over every side of every brush, then prefer the axial
best over the overall best. -/
def ChooseMidPlaneFromList (m : mapdata_t) (opts : options_t)
    (brushes : List bspbrush_t) (node : node_t) : Option Nat :=
  let best := (brushes.flatMap fun b => b.sides).foldl (midCandStep m opts node)
    ⟨none, none⟩
  match best.axial with
  | some ax => some ax.2
  | none => best.any.map fun b => b.2

/-- The forced_quick_tree resolution of SelectSplitPlane (brushbsp.cc
lines 760-779): an explicit argument passes through; otherwise a
non-zero midsplitbrushfraction selects the brush-count fraction test,
else a maxnodesize of at least 64 selects the node extent test, else
the value stays absent (the source would then read an engaged optional
it never set). -/
def resolveForcedQuick (opts : options_t) (total count : Nat) (bounds : aabb3d)
    (forced : Option Bool) : Option Bool :=
  match forced with
  | some b => some b
  | none =>
    if opts.midsplitbrushfraction ≠ 0 then
      some (decide ((count : ℚ) / (total : ℚ) > opts.midsplitbrushfraction))
    else if opts.maxnodesize ≥ 64 then
      let mns := opts.maxnodesize - opts.epsilon
      some (decide (bounds.maxs.x - bounds.mins.x > mns)
        || decide (bounds.maxs.y - bounds.mins.y > mns)
        || decide (bounds.maxs.z - bounds.mins.z > mns))
    else none

/-- The midsplit gate of SelectSplitPlane (brushbsp.cc lines 751-792):
with a non-empty brush list, ChooseMidPlaneFromList is attempted
exactly when the resolved forced_quick_tree value is true. -/
def selectAttemptsMidsplit (opts : options_t) (total count : Nat) (bounds : aabb3d)
    (forced : Option Bool) : Bool :=
  count != 0 && (resolveForcedQuick opts total count bounds forced).getD false

/-- The midsplit trigger condition exactly as claim C7 words it: a
plain disjunction of the fraction test and the node size test. -/
def claimMidsplitCond (opts : options_t) (total count : Nat) (bounds : aabb3d)
    (forced : Option Bool) : Bool :=
  forced == some true ||
  (forced == none &&
    ((decide (opts.midsplitbrushfraction > 0)
        && decide ((count : ℚ) / (total : ℚ) > opts.midsplitbrushfraction))
      || (decide (opts.maxnodesize ≥ 64)
        && (decide (bounds.maxs.x - bounds.mins.x > opts.maxnodesize - opts.epsilon)
          || decide (bounds.maxs.y - bounds.mins.y > opts.maxnodesize - opts.epsilon)
          || decide (bounds.maxs.z - bounds.mins.z > opts.maxnodesize - opts.epsilon)))))

/-- SplitBrushList of brushbsp.cc lines 927-971: route every brush by
its cached side bits, splitting straddling brushes, marking the used
plane of facing brushes as onnode, and dropping a brush whose bits
select neither child. -/
def SplitBrushList (m : mapdata_t) (opts : options_t) (brushes : List bspbrush_t)
    (planenum : Nat) (stats : bspstats_t) :
    (List bspbrush_t × List bspbrush_t) × bspstats_t :=
  brushes.foldl
    (fun acc brush =>
      let sides := brush.side
      if sides = PSIDE_BOTH then
        let r := SplitBrush m opts brush planenum acc.2
        let front := match r.1.1 with
          | some f => acc.1.1 ++ [f]
          | none => acc.1.1
        let back := match r.1.2 with
          | some b => acc.1.2 ++ [b]
          | none => acc.1.2
        ((front, back), r.2)
      else
        let brush2 :=
          if sides &&& PSIDE_FACING ≠ 0 then
            { brush with sides := brush.sides.map fun s =>
                if posNum s.planenum = planenum then { s with onnode := true } else s }
          else brush
        if sides &&& PSIDE_FRONT ≠ 0 then ((acc.1.1 ++ [brush2], acc.1.2), acc.2)
        else if sides &&& PSIDE_BACK ≠ 0 then ((acc.1.1, acc.1.2 ++ [brush2]), acc.2)
        else acc)
    (([], []), stats)

/-- BrushGE of brushbsp.cc lines 1167-1178: b1 may bite b2 unless b1
is detail while b2 is structural, and only solid brushes bite. -/
def BrushGE (g : gamedef_t) (b1 b2 : bspbrush_t) : Bool :=
  if g.is_any_detail b1.mapcontents && !(g.is_any_detail b2.mapcontents) then false
  else g.is_solid b1.mapcontents

/-- BrushesDisjoint of brushbsp.cc lines 1188-1206: certainly disjoint
when the bounds do not overlap or some pair of sides uses opposing
planes. -/
def BrushesDisjoint (a b : bspbrush_t) : Bool :=
  if a.bounds.disjoint_or_touching b.bounds then true
  else a.sides.any fun sa => b.sides.any fun sb => sa.planenum == sb.planenum ^^^ 1

/-- The loop body of SubtractBrush: split the running intersection by
each side plane of b in turn, collecting front pieces with push_front.
An empty back means a never really intersected b; the C++ then returns
the single-element list holding the original pointer a, encoded here
as none. -/
def subtractGo (m : mapdata_t) (opts : options_t) (sides : List side_t)
    (inBrush : bspbrush_t) (out : List bspbrush_t) : Option (List bspbrush_t) :=
  match sides with
  | [] => some out
  | s :: rest =>
    let r := SplitBrush m opts inBrush s.planenum stats0
    let out2 := match r.1.1 with
      | some f => f :: out
      | none => out
    match r.1.2 with
    | none => none
    | some back => subtractGo m opts rest back out2

/-- SubtractBrush of brushbsp.cc lines 1218-1241.  A none result is
the branch that returns the original list of a alone (callers detect
it by pointer equality); some gives the accumulated piece list, which
is empty when a is contained in b. -/
def SubtractBrush (m : mapdata_t) (opts : options_t) (a b : bspbrush_t) :
    Option (List bspbrush_t) :=
  subtractGo m opts b.sides a []

/-- The list SubtractBrush hands back to callers: the pieces, or the
original brush alone when there was no real intersection. -/
def subtractPieces (m : mapdata_t) (opts : options_t) (a b : bspbrush_t) :
    List bspbrush_t :=
  (SubtractBrush m opts a b).getD [a]

/-- What the ChopBrushes pair examination decides to do with the pair. -/
inductive pairaction_t where
  | skip
  | swallow1
  | swallow2
  | replace1 (pieces : List bspbrush_t)
  | replace2 (pieces : List bspbrush_t)
deriving DecidableEq

/-- The pair examination of the ChopBrushes main loop (brushbsp.cc
lines 1304-1360): skip disjoint pairs; compute each subtraction only
when the biting is allowed; treat a no-intersection subtraction as a
skip; an empty subtraction swallows that brush; when both computed
fragment counts exceed one (an uncomputed count standing for
SIZE_MAX) skip; otherwise replace the side with the smaller count by
its pieces, the second side winning ties.  The flag d is the
disjointness test, g21 allows b2 to bite b1 with subtraction result
s1, and g12, s2 are the mirrored pair. -/
def chopPairCore (d g21 : Bool) (s1 : Option (List bspbrush_t)) (g12 : Bool)
    (s2 : Option (List bspbrush_t)) : pairaction_t :=
  if d then .skip
  else
    let sub : Option (Option (List bspbrush_t)) :=
      if g21 then some s1 else none
    match sub with
    | some none => .skip
    | some (some []) => .swallow1
    | _ =>
      let sub2 : Option (Option (List bspbrush_t)) :=
        if g12 then some s2 else none
      match sub2 with
      | some none => .skip
      | some (some []) => .swallow2
      | _ =>
        let c1 : Option Nat := match sub with
          | some (some l) => some l.length
          | _ => none
        let c2 : Option Nat := match sub2 with
          | some (some l) => some l.length
          | _ => none
        if c1 = none ∧ c2 = none then .skip
        else if c1.getD 2 > 1 ∧ c2.getD 2 > 1 then .skip
        else
          let optLt : Bool := match c1, c2 with
            | some x, some y => decide (x < y)
            | some _, none => true
            | none, _ => false
          if optLt then
            .replace1 (match sub with
              | some (some l) => l
              | _ => [])
          else
            .replace2 (match sub2 with
              | some (some l) => l
              | _ => [])

/-- The pair examination of the ChopBrushes main loop (brushbsp.cc
lines 1304-1360), assembled from its five inputs; the subtraction
arguments are only forced when the matching bite test allows them,
mirroring the lazy computation in the source. -/
def chopPairDecision (g : gamedef_t) (opts : options_t) (m : mapdata_t)
    (b1 b2 : bspbrush_t) : pairaction_t :=
  chopPairCore (BrushesDisjoint b1 b2) (BrushGE g b2 b1) (SubtractBrush m opts b1 b2)
    (BrushGE g b1 b2) (SubtractBrush m opts b2 b1)

/-- The inner b2 scan of the ChopBrushes main loop: find the first
pair after b1 that demands an action, returning it with the index of
b2 in the whole list. -/
def chopInner (g : gamedef_t) (opts : options_t) (m : mapdata_t) (b1 : bspbrush_t) :
    List bspbrush_t → Nat → Option (pairaction_t × Nat)
  | [], _ => none
  | b2 :: rest, j =>
    match chopPairDecision g opts m b1 b2 with
    | .skip => chopInner g opts m b1 rest (j + 1)
    | act => some (act, j)

/-- The ChopBrushes main loop (brushbsp.cc lines 1283-1370) on an
indexed list.  The iterator b1_it is the index i; every structural
change re-enters the loop at the preserved position, mirroring the
goto and the iterator bookkeeping: a swallowed or replaced b1 erases
index i and continues at i, an erased b2 leaves i in place, and
replacement pieces are spliced at the end.  Fuel bounds the number of
steps; the concrete runs in this file stay far below it. -/
def chopGo (g : gamedef_t) (opts : options_t) (m : mapdata_t) :
    Nat → List bspbrush_t → Nat → Option (List bspbrush_t)
  | 0, _, _ => none
  | fuel + 1, list, i =>
    match list.get? i with
    | none => some list
    | some b1 =>
      match chopInner g opts m b1 (list.drop (i + 1)) (i + 1) with
      | none => chopGo g opts m fuel list (i + 1)
      | some (act, j) =>
        let list2 := match act with
          | .skip => list
          | .swallow1 => list.eraseIdx i
          | .swallow2 => list.eraseIdx j
          | .replace1 ps => (list ++ ps).eraseIdx i
          | .replace2 ps => (list ++ ps).eraseIdx j
        if list2.length = 0 then some [] else chopGo g opts m fuel list2 i

/-- ChopBrushes of brushbsp.cc lines 1269-1376: restructure the brush
list by iterated pairwise subtraction until a full scan makes no
change.  none means the fuel ran out. -/
def ChopBrushes (g : gamedef_t) (opts : options_t) (m : mapdata_t) (fuel : Nat)
    (brushes : List bspbrush_t) : Option (List bspbrush_t) :=
  if brushes.isEmpty then some [] else chopGo g opts m fuel brushes 0

/-- The degenerate tree built for an entity without brushes
(brushbsp.cc lines 1045-1070): a head node with plane index 0 and two
empty leaf children pointing back at it. -/
def emptyEntityTree (g : gamedef_t) (entityBounds : aabb3d) : tree_t :=
  let head : node_t :=
    { bounds := entityBounds, planenum := some 0, children := some (1, 2),
      parent := none, is_leaf := false, contents := none, volume := none,
      detail_separator := false }
  let leaf : node_t :=
    { bounds := default, planenum := none, children := none,
      parent := some 0, is_leaf := true, contents := some g.empty_contents,
      volume := none, detail_separator := false }
  { nodes := [head, leaf, leaf], headnode := 0, bounds := entityBounds }

/-- BrushBSP of brushbsp.cc lines 1039-1158, restricted to the empty
brush list branch the claims examine; the general branch runs the
parallel recursive builder, which is outside this embedding, and is
left absent. -/
def BrushBSP (g : gamedef_t) (entityBounds : aabb3d) (brushlist : List bspbrush_t) :
    Option tree_t :=
  if brushlist.isEmpty then some (emptyEntityTree g entityBounds) else none

/-- A pair of registry entries for an axial x plane and its flip. -/
def planePairX (d : ℚ) : List qbsp_plane_t :=
  [⟨⟨⟨1, 0, 0⟩, d⟩, .PLANE_X⟩, ⟨⟨⟨-1, 0, 0⟩, -d⟩, .PLANE_X⟩]

/-- A pair of registry entries for an axial y plane and its flip. -/
def planePairY (d : ℚ) : List qbsp_plane_t :=
  [⟨⟨⟨0, 1, 0⟩, d⟩, .PLANE_Y⟩, ⟨⟨⟨0, -1, 0⟩, -d⟩, .PLANE_Y⟩]

/-- A pair of registry entries for an axial z plane and its flip. -/
def planePairZ (d : ℚ) : List qbsp_plane_t :=
  [⟨⟨⟨0, 0, 1⟩, d⟩, .PLANE_Z⟩, ⟨⟨⟨0, 0, -1⟩, -d⟩, .PLANE_Z⟩]

/-- The six sides of an axial cube spanning a to b on every axis, with
the given plane indices in max-x, min-x, max-y, min-y, max-z, min-z
order.  All sides are visible, non-bevel, texinfo 0. -/
def cubeSides (a b : ℚ) (pxM pxm pyM pym pzM pzm : Nat) : List side_t :=
  [⟨pxM, [⟨b, a, a⟩, ⟨b, b, a⟩, ⟨b, b, b⟩, ⟨b, a, b⟩], 0, false, false, false, true⟩,
   ⟨pxm, [⟨a, a, a⟩, ⟨a, a, b⟩, ⟨a, b, b⟩, ⟨a, b, a⟩], 0, false, false, false, true⟩,
   ⟨pyM, [⟨a, b, a⟩, ⟨a, b, b⟩, ⟨b, b, b⟩, ⟨b, b, a⟩], 0, false, false, false, true⟩,
   ⟨pym, [⟨a, a, a⟩, ⟨b, a, a⟩, ⟨b, a, b⟩, ⟨a, a, b⟩], 0, false, false, false, true⟩,
   ⟨pzM, [⟨a, a, b⟩, ⟨b, a, b⟩, ⟨b, b, b⟩, ⟨a, b, b⟩], 0, false, false, false, true⟩,
   ⟨pzm, [⟨a, a, a⟩, ⟨a, b, a⟩, ⟨b, b, a⟩, ⟨b, a, a⟩], 0, false, false, false, true⟩]

/-- Options used by the concrete checks: generous world extent, a
small microvolume, the historical node size default. -/
def opts0 : options_t :=
  { worldextent := 131072, microvolume := 1 / 100, maxnodesize := 1024,
    midsplitbrushfraction := 0, epsilon := 1 / 100 }

/-- Registry for the split checks: plane 0 is x = 32, planes 2-13 are
the faces of the cube spanning 0 to 64, planes 14-25 the faces of the
tiny cube spanning -1/20 to 1/20. -/
def mapA : mapdata_t :=
  { planes := planePairX 32 ++ planePairX 64 ++ planePairX 0 ++ planePairY 64
      ++ planePairY 0 ++ planePairZ 64 ++ planePairZ 0
      ++ planePairX (1 / 20) ++ planePairX (-(1 / 20)) ++ planePairY (1 / 20)
      ++ planePairY (-(1 / 20)) ++ planePairZ (1 / 20) ++ planePairZ (-(1 / 20)),
    texinfos := [⟨false, false⟩],
    skip_texinfo := 7,
    total_brushes := 10 }

/-- Solid cube brush spanning 0 to 64 on every axis. -/
def cube64 : bspbrush_t :=
  { sides := cubeSides 0 64 2 5 6 9 10 13,
    bounds := ⟨⟨0, 0, 0⟩, ⟨64, 64, 64⟩⟩,
    contents := 1, mapcontents := 1, side := 0, testside := 0 }

/-- Tiny cube brush spanning -1/20 to 1/20 on every axis; it straddles
the plane x = 0 with every vertex within the coarse 0.1 threshold. -/
def tinyCube : bspbrush_t :=
  { sides := cubeSides (-(1 / 20)) (1 / 20) 14 17 18 21 22 25,
    bounds := ⟨⟨-(1 / 20), -(1 / 20), -(1 / 20)⟩, ⟨1 / 20, 1 / 20, 1 / 20⟩⟩,
    contents := 1, mapcontents := 1, side := 0, testside := 0 }

/-- A brush with only two sides, dropped by the split validation. -/
def twoSided64 : bspbrush_t :=
  { sides := (cubeSides 0 64 2 5 6 9 10 13).take 2,
    bounds := ⟨⟨0, 0, 0⟩, ⟨64, 64, 64⟩⟩,
    contents := 1, mapcontents := 1, side := 0, testside := 0 }

/-- The cube brush with a distinct contents word, standing in for the
original brush handed to the validation step. -/
def origMarked : bspbrush_t := { cube64 with contents := 9 }

/-- Registry for the chop check: planes 0-11 are the faces of the cube
spanning 0 to 96, planes 12-23 the faces of the cube spanning 32 to
64. -/
def mapB : mapdata_t :=
  { planes := planePairX 96 ++ planePairX 0 ++ planePairY 96 ++ planePairY 0
      ++ planePairZ 96 ++ planePairZ 0
      ++ planePairX 64 ++ planePairX 32 ++ planePairY 64 ++ planePairY 32
      ++ planePairZ 64 ++ planePairZ 32,
    texinfos := [⟨false, false⟩],
    skip_texinfo := 7,
    total_brushes := 2 }

/-- A target game where contents 1 is solid and contents 3 is detail. -/
def gameB : gamedef_t :=
  { empty_contents := 0, combine_contents := fun a b => max a b,
    is_any_detail := fun c => c == 3, is_solid := fun c => c == 1 }

/-- Non-solid cube spanning 0 to 96; its contents word 2 is neither
solid nor detail under gameB. -/
def chopBig : bspbrush_t :=
  { sides := cubeSides 0 96 0 3 4 7 8 11,
    bounds := ⟨⟨0, 0, 0⟩, ⟨96, 96, 96⟩⟩,
    contents := 2, mapcontents := 2, side := 0, testside := 0 }

/-- Non-solid cube spanning 32 to 64, contained in chopBig. -/
def chopSmall : bspbrush_t :=
  { sides := cubeSides 32 64 12 15 16 19 20 23,
    bounds := ⟨⟨32, 32, 32⟩, ⟨64, 64, 64⟩⟩,
    contents := 2, mapcontents := 2, side := 0, testside := 0 }

/-- Registry for the midsplit check: plane 0 is the axial plane
x = 10, plane 2 the non-axial plane with unit normal (3/5, 4/5, 0) and
distance 35, planes 4-15 the faces of the cube spanning 0 to 100. -/
def mapC : mapdata_t :=
  { planes := planePairX 10
      ++ [⟨⟨⟨3 / 5, 4 / 5, 0⟩, 35⟩, .PLANE_ANYX⟩,
          ⟨⟨⟨-(3 / 5), -(4 / 5), 0⟩, -35⟩, .PLANE_ANYX⟩]
      ++ planePairX 100 ++ planePairX 0 ++ planePairY 100 ++ planePairY 0
      ++ planePairZ 100 ++ planePairZ 0,
    texinfos := [⟨false, false⟩],
    skip_texinfo := 7,
    total_brushes := 1 }

/-- The node volume for the midsplit check: the cube from 0 to 100. -/
def volC : bspbrush_t :=
  { sides := cubeSides 0 100 4 7 8 11 12 15,
    bounds := ⟨⟨0, 0, 0⟩, ⟨100, 100, 100⟩⟩,
    contents := 1, mapcontents := 1, side := 0, testside := 0 }

/-- Candidate brush offering the axial plane 0 and the non-axial plane
2 as splitters; candidate enumeration reads only the plane indices and
flags of the sides. -/
def candBrush : bspbrush_t :=
  { sides := [⟨0, [], 0, false, false, false, true⟩, ⟨2, [], 0, false, false, false, true⟩],
    bounds := ⟨⟨0, 0, 0⟩, ⟨100, 100, 100⟩⟩,
    contents := 1, mapcontents := 1, side := 0, testside := 0 }

/-- The node for the midsplit check. -/
def nodeC : node_t :=
  { bounds := ⟨⟨0, 0, 0⟩, ⟨100, 100, 100⟩⟩, planenum := none, children := none,
    parent := none, is_leaf := false, contents := none, volume := some volC,
    detail_separator := false }

/-- Non-axial plane with unit rational normal used by the box check. -/
def slantPlane : qbsp_plane_t := ⟨⟨⟨3 / 5, 4 / 5, 0⟩, 0⟩, .PLANE_ANYX⟩

/-- The unit box used by the box check. -/
def unitBox : aabb3d := ⟨⟨0, 0, 0⟩, ⟨1, 1, 1⟩⟩

/-- Options for the midsplit trigger check: the fraction path is
switched on and the node size path would also fire. -/
def opts7 : options_t :=
  { worldextent := 131072, microvolume := 1 / 100, maxnodesize := 1024,
    midsplitbrushfraction := 1 / 2, epsilon := 1 / 100 }

/-- An oversized node bounds for the midsplit trigger check. -/
def bounds7 : aabb3d := ⟨⟨0, 0, 0⟩, ⟨2000, 2000, 2000⟩⟩

/-- A brush with no sides whose cached side classification is zero. -/
def bZero : bspbrush_t :=
  { sides := [], bounds := ⟨⟨0, 0, 0⟩, ⟨0, 0, 0⟩⟩,
    contents := 1, mapcontents := 1, side := 0, testside := 0 }

/-- The cube brush with cached side classification front. -/
def bFront : bspbrush_t := { cube64 with side := 1 }

/-- The non-axial box classification exactly as claim C5 words it: the
FRONT bit iff dist1 is at least the epsilon, the BACK bit iff dist2 is
below the negated epsilon. -/
def boxOnPlaneSideClaim (bounds : aabb3d) (plane : qbsp_plane_t) : Nat :=
  (if qdot plane.get_normal (boxLeadingCorner bounds plane) - plane.get_dist
      ≥ PLANESIDE_EPSILON then PSIDE_FRONT else 0) |||
  (if qdot plane.get_normal (boxTrailingCorner bounds plane) - plane.get_dist
      < -PLANESIDE_EPSILON then PSIDE_BACK else 0)

/-- A side is a valid midsplit candidate: not a bevel, not already a
node splitter, and its positive plane cuts the node volume. -/
def midValidSide (m : mapdata_t) (opts : options_t) (node : node_t) (s : side_t) : Prop :=
  s.bevel = false ∧ s.onnode = false ∧
    CheckPlaneAgainstVolume m opts (posNum s.planenum) node = true

/-- The positive plane of the side is axial. -/
def midSideAxial (m : mapdata_t) (s : side_t) : Prop :=
  (s.get_positive_plane m).get_type.isAxial = true

/-- The volume-balance metric of the side. -/
def midSideMetric (m : mapdata_t) (node : node_t) (s : side_t) : ℚ :=
  SplitPlaneMetric (s.get_positive_plane m) node.bounds

/-- Invariant of the candidate fold of ChooseMidPlaneFromList over the
sides seen so far: each running best is absent exactly when no
candidate of its class was seen, and otherwise records a seen
candidate of minimal metric in its class. -/
def midInv (m : mapdata_t) (opts : options_t) (node : node_t)
    (seen : List side_t) (st : midbest_t) : Prop :=
  (st.axial = none ↔ ∀ s ∈ seen, ¬(midValidSide m opts node s ∧ midSideAxial m s)) ∧
  (∀ mv pv, st.axial = some (mv, pv) →
    (∃ s ∈ seen, (midValidSide m opts node s ∧ midSideAxial m s) ∧
      posNum s.planenum = pv ∧ midSideMetric m node s = mv) ∧
    ∀ t ∈ seen, (midValidSide m opts node t ∧ midSideAxial m t) →
      mv ≤ midSideMetric m node t) ∧
  (st.any = none ↔ ∀ s ∈ seen, ¬midValidSide m opts node s) ∧
  (∀ mv pv, st.any = some (mv, pv) →
    (∃ s ∈ seen, midValidSide m opts node s ∧
      posNum s.planenum = pv ∧ midSideMetric m node s = mv) ∧
    ∀ t ∈ seen, midValidSide m opts node t → mv ≤ midSideMetric m node t)

/-- C8: TestBrushToPlanenum never reports the facing bit together with
a nonzero split count: whenever the returned classification has
PSIDE_FACING set, numsplits is zero, so the fatal error branch of
SelectSplitPlane checking this combination is unreachable. -/
theorem testBrushToPlanenum_facing_no_splits (m : mapdata_t) (brush : bspbrush_t)
    (planenum : Nat) (counting : Bool) (epsIn : Nat)
    (h : (TestBrushToPlanenum m brush planenum counting epsIn).s &&& PSIDE_FACING ≠ 0) :
    (TestBrushToPlanenum m brush planenum counting epsIn).numsplits = 0 := by
  unfold TestBrushToPlanenum at h ⊢
  cases hf : facingCheck brush.sides planenum with
  | some s => simp [hf]
  | none =>
    simp only [hf] at h ⊢
    by_cases hb : BoxOnPlaneSide brush.bounds (m.get_plane planenum) = PSIDE_BOTH
    · simp only [hb, ne_eq, not_true_eq_false, if_false] at h ⊢
      cases counting with
      | false => simp
      | true =>
        exfalso
        simp only [if_true, PSIDE_BOTH, PSIDE_FACING, ne_eq] at h
        exact h (by decide)
    · simp [hb]

/-- Witness for C8 at a brush owning the plane. -/
theorem testBrushToPlanenum_facing_no_splits_inst :
    (TestBrushToPlanenum mapA cube64 2 true 0).numsplits = 0 :=
  testBrushToPlanenum_facing_no_splits mapA cube64 2 true 0 (by with_unfolding_all decide)

/-- C9: BrushBSP on an empty brush list yields the degenerate tree: a
head node with exactly two children, both leaves with empty contents
and parent pointers back to the head node. -/
theorem brushBSP_empty_entity_tree (g : gamedef_t) (bounds : aabb3d) :
    BrushBSP g bounds [] = some (emptyEntityTree g bounds) ∧
    (emptyEntityTree g bounds).headnode = 0 ∧
    ∃ head c1 c2,
      (emptyEntityTree g bounds).nodes = [head, c1, c2] ∧
      head.children = some (1, 2) ∧
      c1.is_leaf = true ∧ c1.contents = some g.empty_contents ∧ c1.parent = some 0 ∧
      c2.is_leaf = true ∧ c2.contents = some g.empty_contents ∧ c2.parent = some 0 := by
  refine ⟨rfl, rfl,
    { bounds := bounds, planenum := some 0, children := some (1, 2), parent := none,
      is_leaf := false, contents := none, volume := none, detail_separator := false },
    { bounds := default, planenum := none, children := none, parent := some 0,
      is_leaf := true, contents := some g.empty_contents, volume := none,
      detail_separator := false },
    { bounds := default, planenum := none, children := none, parent := some 0,
      is_leaf := true, contents := some g.empty_contents, volume := none,
      detail_separator := false },
    rfl, rfl, rfl, rfl, rfl, rfl, rfl, rfl⟩

/-- C10: a brush whose cached side classification carries neither the
front nor the back bit is appended to neither child list by
SplitBrushList and is silently discarded. -/
theorem splitBrushList_discards_sideless (m : mapdata_t) (opts : options_t)
    (b : bspbrush_t) (rest : List bspbrush_t) (planenum : Nat) (stats : bspstats_t)
    (h : b.side &&& PSIDE_BOTH = 0) :
    SplitBrushList m opts (b :: rest) planenum stats
      = SplitBrushList m opts rest planenum stats := by
  have h3 : ¬(b.side = PSIDE_BOTH) := by
    intro e
    rw [e] at h
    exact absurd h (by decide)
  have e1 : PSIDE_BOTH &&& PSIDE_FRONT = PSIDE_FRONT := by decide
  have e2 : PSIDE_BOTH &&& PSIDE_BACK = PSIDE_BACK := by decide
  have h1 : b.side &&& PSIDE_FRONT = 0 := by
    rw [← e1, ← Nat.and_assoc, h, Nat.zero_and]
  have h2 : b.side &&& PSIDE_BACK = 0 := by
    rw [← e2, ← Nat.and_assoc, h, Nat.zero_and]
  unfold SplitBrushList
  rw [List.foldl_cons]
  congr 1
  simp [h3, h1, h2]

/-- Witness for C10 at the concrete sideless brush. -/
theorem splitBrushList_discards_sideless_inst :
    SplitBrushList mapA opts0 [bZero, bFront] 0 stats0
      = SplitBrushList mapA opts0 [bFront] 0 stats0 :=
  splitBrushList_discards_sideless mapA opts0 bZero [bFront] 0 stats0
    (by with_unfolding_all decide)

/-- C1 amended: the two trivial-side checks of SplitBrush fire in
order; if d_front is below 0.1 the result is the brush on the back,
and otherwise if d_back is above -0.1 the result is the brush on the
front. -/
theorem splitBrush_noncrossing_sides (m : mapdata_t) (opts : options_t)
    (brush : bspbrush_t) (planenum : Nat) (stats : bspstats_t) :
    (splitDFront brush (m.get_plane planenum).p < 1 / 10 →
      SplitBrush m opts brush planenum stats = ((none, some brush), stats)) ∧
    (¬splitDFront brush (m.get_plane planenum).p < 1 / 10 →
      splitDBack brush (m.get_plane planenum).p > -(1 / 10) →
      SplitBrush m opts brush planenum stats = ((some brush, none), stats)) := by
  constructor
  · intro h
    unfold SplitBrush
    rw [if_pos h]
  · intro h1 h2
    unfold SplitBrush
    rw [if_neg h1, if_pos h2]

/-- Witness for the C1 theorem at the tiny cube. -/
theorem splitBrush_noncrossing_sides_inst :
    SplitBrush mapA opts0 tinyCube 4 stats0 = ((none, some tinyCube), stats0) :=
  (splitBrush_noncrossing_sides mapA opts0 tinyCube 4 stats0).1
    (by with_unfolding_all decide)

/-- Counterexample to C1 as stated: the tiny cube has d_back above
-0.1, yet SplitBrush does not return it on the front side, because the
d_front check fires first. -/
theorem splitBrush_noncrossing_order :
    splitDBack tinyCube (mapA.get_plane 4).p > -(1 / 10) ∧
    (SplitBrush mapA opts0 tinyCube 4 stats0).1 ≠ (some tinyCube, none) := by
  constructor
  · with_unfolding_all decide
  · with_unfolding_all decide

/-- C5 amended: for a non-axial plane, the box classification sets the
front bit exactly when the leading corner distance reaches the
epsilon, and sets the back bit exactly when the trailing corner
distance is below the positive epsilon. -/
theorem orBits12 (p q : Prop) [Decidable p] [Decidable q] :
    ((((if p then PSIDE_FRONT else 0) ||| (if q then PSIDE_BACK else 0)) &&& PSIDE_FRONT
        ≠ 0 ↔ p) ∧
     (((if p then PSIDE_FRONT else 0) ||| (if q then PSIDE_BACK else 0)) &&& PSIDE_BACK
        ≠ 0 ↔ q)) := by
  by_cases hp : p <;> by_cases hq : q <;>
    simp only [hp, hq, if_true, if_false, PSIDE_FRONT, PSIDE_BACK] <;>
    refine ⟨?_, ?_⟩ <;> simp

/-- C5 amended: for a non-axial plane, the box classification sets the
front bit exactly when the leading corner distance reaches the
epsilon, and sets the back bit exactly when the trailing corner
distance is below the positive epsilon. -/
theorem boxOnPlaneSide_nonaxial_bits (bounds : aabb3d) (plane : qbsp_plane_t)
    (h : plane.get_type.isAxial = false) :
    ((BoxOnPlaneSide bounds plane) &&& PSIDE_FRONT ≠ 0 ↔
      qdot plane.get_normal (boxLeadingCorner bounds plane) - plane.get_dist
        ≥ PLANESIDE_EPSILON) ∧
    ((BoxOnPlaneSide bounds plane) &&& PSIDE_BACK ≠ 0 ↔
      qdot plane.get_normal (boxTrailingCorner bounds plane) - plane.get_dist
        < PLANESIDE_EPSILON) := by
  unfold BoxOnPlaneSide boxLeadingCorner boxTrailingCorner
  rw [h]
  simp only [Bool.false_eq_true, if_false]
  exact orBits12 _ _

/-- Witness for the C5 theorem at the slanted plane and unit box. -/
theorem boxOnPlaneSide_nonaxial_bits_inst :
    (BoxOnPlaneSide unitBox slantPlane) &&& PSIDE_BACK ≠ 0 ↔
      qdot slantPlane.get_normal (boxTrailingCorner unitBox slantPlane)
        - slantPlane.get_dist < PLANESIDE_EPSILON :=
  (boxOnPlaneSide_nonaxial_bits unitBox slantPlane (by with_unfolding_all decide)).2

/-- Counterexample to C5 as stated: on the unit box and the slanted
plane the code returns both bits while the claimed formula with the
negated epsilon on the back test returns only the front bit. -/
theorem boxOnPlaneSide_back_epsilon_sign :
    BoxOnPlaneSide unitBox slantPlane = 3 ∧ boxOnPlaneSideClaim unitBox slantPlane = 1 := by
  constructor
  · with_unfolding_all decide
  · with_unfolding_all decide

/-- C7 amended: with a positive total brush count, the midsplit mode
is attempted exactly when the brush list is non-empty and either the
caller forces it, or nothing is forced and the option-selected one of
the two triggers fires: the fraction test when midsplitbrushfraction
is non-zero, else the node extent test when maxnodesize is at least
64. -/
theorem selectAttemptsMidsplit_iff (opts : options_t) (total count : Nat)
    (bounds : aabb3d) (forced : Option Bool) (ht : total ≠ 0) :
    selectAttemptsMidsplit opts total count bounds forced = true ↔
      (count ≠ 0 ∧
        (forced = some true ∨
          (forced = none ∧
            if opts.midsplitbrushfraction ≠ 0 then
              (count : ℚ) / (total : ℚ) > opts.midsplitbrushfraction
            else
              64 ≤ opts.maxnodesize ∧
                (bounds.maxs.x - bounds.mins.x > opts.maxnodesize - opts.epsilon ∨
                 bounds.maxs.y - bounds.mins.y > opts.maxnodesize - opts.epsilon ∨
                 bounds.maxs.z - bounds.mins.z > opts.maxnodesize - opts.epsilon)))) := by
  unfold selectAttemptsMidsplit resolveForcedQuick
  cases forced with
  | some b => cases b <;> simp
  | none =>
    by_cases hf : opts.midsplitbrushfraction = 0
    · simp only [hf, ne_eq, not_true_eq_false, if_false]
      by_cases hm : (64 : ℚ) ≤ opts.maxnodesize
      · simp [hm, ge_iff_le, and_assoc, or_assoc]
      · simp [hm]
    · simp [hf]

/-- Witness for the C7 theorem at the concrete trigger data. -/
theorem selectAttemptsMidsplit_iff_inst :
    selectAttemptsMidsplit opts7 100 1 bounds7 (some true) = true ↔
      ((1 : Nat) ≠ 0 ∧
        ((some true : Option Bool) = some true ∨
          ((some true : Option Bool) = none ∧
            if opts7.midsplitbrushfraction ≠ 0 then
              ((1 : Nat) : ℚ) / ((100 : Nat) : ℚ) > opts7.midsplitbrushfraction
            else
              64 ≤ opts7.maxnodesize ∧
                (bounds7.maxs.x - bounds7.mins.x > opts7.maxnodesize - opts7.epsilon ∨
                 bounds7.maxs.y - bounds7.mins.y > opts7.maxnodesize - opts7.epsilon ∨
                 bounds7.maxs.z - bounds7.mins.z > opts7.maxnodesize - opts7.epsilon)))) :=
  selectAttemptsMidsplit_iff opts7 100 1 bounds7 (some true) (by decide)

/-- Counterexample to C7 as stated: the fraction option is set but the
node fraction is small, while the node extent test of the claim would
fire; the code does not attempt midsplit although the claimed plain
disjunction holds. -/
theorem midsplit_trigger_else_if :
    selectAttemptsMidsplit opts7 100 1 bounds7 none = false ∧
    claimMidsplitCond opts7 100 1 bounds7 none = true := by
  constructor
  · with_unfolding_all decide
  · with_unfolding_all decide

/-- C3: the validation step of SplitBrush drops a half whose
recomputed bounds leave the world extent or that has fewer than three
sides; when both halves drop, c_brushesremoved is counted and no half
is returned; when exactly one drops, c_brushesonesided is counted and
the original unsplit brush is returned on the surviving side in place
of the trimmed half. -/
theorem splitBrushValidate_drops (opts : options_t) (brush r0 r1 : bspbrush_t)
    (stats : bspstats_t) :
    (∀ r r2, update_bounds r = some r2 →
      ((r2.bounds.mins.x < -opts.worldextent ∨ r2.bounds.maxs.x > opts.worldextent
        ∨ r2.bounds.mins.y < -opts.worldextent ∨ r2.bounds.maxs.y > opts.worldextent
        ∨ r2.bounds.mins.z < -opts.worldextent ∨ r2.bounds.maxs.z > opts.worldextent)
       ∨ r2.sides.length < 3) → (checkHalf opts r).1 = none) ∧
    ((checkHalf opts r0).1 = none → (checkHalf opts r1).1 = none →
      ∃ st, splitBrushValidate opts brush r0 r1 stats = .finished none none st ∧
        st.c_brushesremoved = stats.c_brushesremoved + 1) ∧
    ((checkHalf opts r0).1 ≠ none → (checkHalf opts r1).1 = none →
      ∃ st, splitBrushValidate opts brush r0 r1 stats = .finished (some brush) none st ∧
        st.c_brushesonesided = stats.c_brushesonesided + 1) ∧
    ((checkHalf opts r0).1 = none → (checkHalf opts r1).1 ≠ none →
      ∃ st, splitBrushValidate opts brush r0 r1 stats = .finished none (some brush) st ∧
        st.c_brushesonesided = stats.c_brushesonesided + 1) := by
  refine ⟨?_, ?_, ?_, ?_⟩
  · intro r r2 hu hcond
    have hch : checkHalf opts r =
        (if r2.bounds.mins.x < -opts.worldextent ∨ r2.bounds.maxs.x > opts.worldextent
            ∨ r2.bounds.mins.y < -opts.worldextent ∨ r2.bounds.maxs.y > opts.worldextent
            ∨ r2.bounds.mins.z < -opts.worldextent ∨ r2.bounds.maxs.z > opts.worldextent
         then (none, true)
         else if r2.sides.length < 3 then (none, false) else (some r2, false)) := by
      unfold checkHalf
      rw [hu]
    rw [hch]
    rcases hcond with hb | hs
    · rw [if_pos hb]
    · by_cases hbb : (r2.bounds.mins.x < -opts.worldextent
        ∨ r2.bounds.maxs.x > opts.worldextent
        ∨ r2.bounds.mins.y < -opts.worldextent ∨ r2.bounds.maxs.y > opts.worldextent
        ∨ r2.bounds.mins.z < -opts.worldextent ∨ r2.bounds.maxs.z > opts.worldextent)
      · rw [if_pos hbb]
      · rw [if_neg hbb, if_pos hs]
  · intro h0 h1
    refine ⟨{ stats with
        c_bogus := stats.c_bogus + (if (checkHalf opts r0).2 then 1 else 0)
          + (if (checkHalf opts r1).2 then 1 else 0),
        c_brushesremoved := stats.c_brushesremoved + 1 }, ?_, rfl⟩
    unfold splitBrushValidate
    simp only []
    rw [h0, h1]
  · intro h0 h1
    rcases he : (checkHalf opts r0).1 with _ | a
    · exact absurd he h0
    · refine ⟨{ stats with
          c_bogus := stats.c_bogus + (if (checkHalf opts r0).2 then 1 else 0)
            + (if (checkHalf opts r1).2 then 1 else 0),
          c_brushesonesided := stats.c_brushesonesided + 1 }, ?_, rfl⟩
      unfold splitBrushValidate
      simp only []
      rw [he, h1]
  · intro h0 h1
    rcases he : (checkHalf opts r1).1 with _ | a
    · exact absurd he h1
    · refine ⟨{ stats with
          c_bogus := stats.c_bogus + (if (checkHalf opts r0).2 then 1 else 0)
            + (if (checkHalf opts r1).2 then 1 else 0),
          c_brushesonesided := stats.c_brushesonesided + 1 }, ?_, rfl⟩
      unfold splitBrushValidate
      simp only []
      rw [h0, he]

/-- Witness for C3 at a surviving cube and a two-sided trimmed half. -/
theorem splitBrushValidate_drops_inst :
    ∃ st, splitBrushValidate opts0 origMarked cube64 twoSided64 stats0
        = .finished (some origMarked) none st ∧
      st.c_brushesonesided = stats0.c_brushesonesided + 1 :=
  (splitBrushValidate_drops opts0 origMarked cube64 twoSided64 stats0).2.2.1
    (by with_unfolding_all decide) (by with_unfolding_all decide)

/-- The validation step never hands both halves onward through the
finished constructor. -/
theorem splitBrushValidate_not_both (opts : options_t) (brush r0 r1 : bspbrush_t)
    (stats : bspstats_t) (f b : Option bspbrush_t) (st : bspstats_t)
    (h : splitBrushValidate opts brush r0 r1 stats = .finished f b st) :
    f = none ∨ b = none := by
  unfold splitBrushValidate at h
  simp only [] at h
  split at h
  · cases h
    exact Or.inl rfl
  · cases h
    exact Or.inr rfl
  · cases h
    exact Or.inl rfl
  · simp at h

/-- C2: when SplitBrush performs a real split producing both halves,
each half carries the synthesised dividing face as its last side: on
the front half its planenum is the split plane XOR 1, on the back half
the split plane itself, and on both it is onnode with the skip
texinfo. -/
theorem splitBrush_adds_dividing_face (m : mapdata_t) (opts : options_t)
    (brush : bspbrush_t) (planenum : Nat) (stats : bspstats_t) (f b : bspbrush_t)
    (st : bspstats_t)
    (h : SplitBrush m opts brush planenum stats = ((some f, some b), st)) :
    (∃ cs, f.sides.getLast? = some cs ∧ cs.planenum = planenum ^^^ 1 ∧
      cs.onnode = true ∧ cs.texinfo = m.skip_texinfo) ∧
    (∃ cs, b.sides.getLast? = some cs ∧ cs.planenum = planenum ∧
      cs.onnode = true ∧ cs.texinfo = m.skip_texinfo) := by
  unfold SplitBrush at h
  simp only [] at h
  split at h
  · simp at h
  · split at h
    · simp at h
    · split at h
      · split at h <;> simp at h
      · split at h
        · rename_i f0 b0 st0 heq
          rcases splitBrushValidate_not_both _ _ _ _ _ _ _ _ heq with hn | hn <;>
            rw [hn] at h <;> simp at h
        · rename_i a0 b0 st0 heq
          split at h <;> split at h <;> simp only [Prod.mk.injEq] at h
          · rcases h with ⟨⟨hf, hb⟩, hst⟩
            cases hf
          · rcases h with ⟨⟨hf, hb⟩, hst⟩
            cases hf
          · rcases h with ⟨⟨hf, hb⟩, hst⟩
            cases hb
          · rcases h with ⟨⟨hf, hb⟩, hst⟩
            injection hf with hf
            injection hb with hb
            rw [← hf, ← hb]
            constructor
            · exact ⟨_, List.getLast?_concat _,
                by simp [midFace, Nat.xor_zero], rfl, rfl⟩
            · exact ⟨_, List.getLast?_concat _,
                by simp [midFace, Nat.xor_assoc, Nat.xor_self, Nat.xor_zero], rfl, rfl⟩

/-- Witness for C2 at a real split of the cube by the plane x = 32. -/
theorem splitBrush_adds_dividing_face_inst :
    (∃ cs, ((SplitBrush mapA opts0 cube64 0 stats0).1.1.getD default).sides.getLast?
        = some cs ∧ cs.planenum = 0 ^^^ 1 ∧ cs.onnode = true ∧
        cs.texinfo = mapA.skip_texinfo) ∧
    (∃ cs, ((SplitBrush mapA opts0 cube64 0 stats0).1.2.getD default).sides.getLast?
        = some cs ∧ cs.planenum = 0 ∧ cs.onnode = true ∧
        cs.texinfo = mapA.skip_texinfo) :=
  splitBrush_adds_dividing_face mapA opts0 cube64 0 stats0
    ((SplitBrush mapA opts0 cube64 0 stats0).1.1.getD default)
    ((SplitBrush mapA opts0 cube64 0 stats0).1.2.getD default)
    ((SplitBrush mapA opts0 cube64 0 stats0).2)
    (by with_unfolding_all decide)

/-- Counterexample to C4 as stated: two overlapping brushes that
neither may bite survive ChopBrushes unchanged; they are not disjoint
and the subtraction of the big brush from the small one yields no
piece at all, so the pair satisfies neither branch of the claimed
invariant. -/
theorem chopBrushes_pair_invariant_fails :
    ChopBrushes gameB opts0 mapB 10 [chopBig, chopSmall] = some [chopBig, chopSmall] ∧
    BrushesDisjoint chopBig chopSmall = false ∧
    (subtractPieces mapB opts0 chopSmall chopBig).length = 0 := by
  refine ⟨?_, ?_, ?_⟩
  · with_unfolding_all decide
  · with_unfolding_all decide
  · with_unfolding_all decide

/-- Exhaustive characterization of the skip outcome of the pair
examination core: a kept pair is disjoint, or a computed subtraction
showed no real intersection, or neither side may bite, or every
computed subtraction fragments into more than one piece. -/
theorem chopPairCore_skip (d g21 g12 : Bool) (s1 s2 : Option (List bspbrush_t))
    (h : chopPairCore d g21 s1 g12 s2 = .skip) :
    d = true
    ∨ (g21 = true ∧ s1 = none)
    ∨ (g12 = true ∧ s2 = none)
    ∨ (g21 = false ∧ g12 = false)
    ∨ ((g21 = true → ∀ l, s1 = some l → 1 < l.length) ∧
       (g12 = true → ∀ l, s2 = some l → 1 < l.length) ∧
       (g21 = true ∨ g12 = true)) := by
  cases d with
  | true => exact Or.inl rfl
  | false =>
    cases g21 with
    | false =>
      cases g12 with
      | false => exact Or.inr (Or.inr (Or.inr (Or.inl ⟨rfl, rfl⟩)))
      | true =>
        rcases s2 with _ | (_ | ⟨x2, _ | ⟨y2, u2⟩⟩)
        · exact Or.inr (Or.inr (Or.inl ⟨rfl, rfl⟩))
        · exfalso
          simp [chopPairCore] at h
        · exfalso
          simp [chopPairCore] at h
        · refine Or.inr (Or.inr (Or.inr (Or.inr ⟨?_, ?_, Or.inr rfl⟩)))
          · intro hc
            exact Bool.noConfusion hc
          · intro _ l he
            cases he
            simp [List.length_cons]
    | true =>
      rcases s1 with _ | (_ | ⟨x1, _ | ⟨y1, u1⟩⟩)
      · exact Or.inr (Or.inl ⟨rfl, rfl⟩)
      · exfalso
        simp [chopPairCore] at h
      · cases g12 with
        | false =>
          exfalso
          simp [chopPairCore] at h
        | true =>
          rcases s2 with _ | (_ | ⟨x2, _ | ⟨y2, u2⟩⟩)
          · exact Or.inr (Or.inr (Or.inl ⟨rfl, rfl⟩))
          · exfalso
            simp [chopPairCore] at h
          · exfalso
            simp [chopPairCore] at h
          · exfalso
            simp [chopPairCore] at h
      · cases g12 with
        | false =>
          refine Or.inr (Or.inr (Or.inr (Or.inr ⟨?_, ?_, Or.inl rfl⟩)))
          · intro _ l he
            cases he
            simp [List.length_cons]
          · intro hc
            exact Bool.noConfusion hc
        | true =>
          rcases s2 with _ | (_ | ⟨x2, _ | ⟨y2, u2⟩⟩)
          · exact Or.inr (Or.inr (Or.inl ⟨rfl, rfl⟩))
          · exfalso
            simp [chopPairCore] at h
          · exfalso
            simp [chopPairCore] at h
          · refine Or.inr (Or.inr (Or.inr (Or.inr ⟨?_, ?_, Or.inl rfl⟩)))
            · intro _ l he
              cases he
              simp [List.length_cons]
            · intro _ l he
              cases he
              simp [List.length_cons]

/-- C4 amended: whenever the pair examination of the ChopBrushes main
loop keeps both brushes of a pair, either the pair is reported
disjoint, or a computed subtraction showed no real intersection, or
neither brush may bite the other, or every subtraction the code did
compute fragments into more than one piece. -/
theorem chopPairDecision_skip_char (g : gamedef_t) (opts : options_t) (m : mapdata_t)
    (b1 b2 : bspbrush_t) (h : chopPairDecision g opts m b1 b2 = .skip) :
    BrushesDisjoint b1 b2 = true
    ∨ (BrushGE g b2 b1 = true ∧ SubtractBrush m opts b1 b2 = none)
    ∨ (BrushGE g b1 b2 = true ∧ SubtractBrush m opts b2 b1 = none)
    ∨ (BrushGE g b2 b1 = false ∧ BrushGE g b1 b2 = false)
    ∨ ((BrushGE g b2 b1 = true →
          ∀ l, SubtractBrush m opts b1 b2 = some l → 1 < l.length) ∧
       (BrushGE g b1 b2 = true →
          ∀ l, SubtractBrush m opts b2 b1 = some l → 1 < l.length) ∧
       (BrushGE g b2 b1 = true ∨ BrushGE g b1 b2 = true)) :=
  chopPairCore_skip _ _ _ _ _ h

/-- Witness for the C4 theorem at the concrete kept pair. -/
theorem chopPairDecision_skip_char_inst :
    BrushesDisjoint chopBig chopSmall = true
    ∨ (BrushGE gameB chopSmall chopBig = true
        ∧ SubtractBrush mapB opts0 chopBig chopSmall = none)
    ∨ (BrushGE gameB chopBig chopSmall = true
        ∧ SubtractBrush mapB opts0 chopSmall chopBig = none)
    ∨ (BrushGE gameB chopSmall chopBig = false ∧ BrushGE gameB chopBig chopSmall = false)
    ∨ ((BrushGE gameB chopSmall chopBig = true →
          ∀ l, SubtractBrush mapB opts0 chopBig chopSmall = some l → 1 < l.length) ∧
       (BrushGE gameB chopBig chopSmall = true →
          ∀ l, SubtractBrush mapB opts0 chopSmall chopBig = some l → 1 < l.length) ∧
       (BrushGE gameB chopSmall chopBig = true ∨ BrushGE gameB chopBig chopSmall = true)) :=
  chopPairDecision_skip_char gameB opts0 mapB chopBig chopSmall
    (by with_unfolding_all decide)

/-- Counterexample to C6 as stated: both the axial plane 0 and the
non-axial plane 2 are valid candidates and the non-axial metric is
strictly smaller, yet ChooseMidPlaneFromList returns the axial plane;
axial candidates win even without a metric tie. -/
theorem chooseMidPlane_prefers_axial_strictly :
    ChooseMidPlaneFromList mapC opts0 [candBrush] nodeC = some 0 ∧
    CheckPlaneAgainstVolume mapC opts0 0 nodeC = true ∧
    CheckPlaneAgainstVolume mapC opts0 2 nodeC = true ∧
    SplitPlaneMetric (mapC.get_plane 2) nodeC.bounds
      < SplitPlaneMetric (mapC.get_plane 0) nodeC.bounds := by
  refine ⟨?_, ?_, ?_, ?_⟩
  · with_unfolding_all decide
  · with_unfolding_all decide
  · with_unfolding_all decide
  · with_unfolding_all decide

/-- Preservation of the running-best invariant by the strict
improvement update when the new side belongs to the class. -/
theorem betterMid_inv (metric : side_t → ℚ) (pos : side_t → Nat) (P : side_t → Prop)
    (seen : List side_t) (cur : Option (ℚ × Nat)) (s : side_t)
    (h1 : cur = none ↔ ∀ t ∈ seen, ¬P t)
    (h2 : ∀ mv pv, cur = some (mv, pv) →
      (∃ t ∈ seen, P t ∧ pos t = pv ∧ metric t = mv) ∧
      ∀ t ∈ seen, P t → mv ≤ metric t)
    (hs : P s) :
    (betterMid cur (metric s) (pos s) = none ↔ ∀ t ∈ seen ++ [s], ¬P t) ∧
    (∀ mv pv, betterMid cur (metric s) (pos s) = some (mv, pv) →
      (∃ t ∈ seen ++ [s], P t ∧ pos t = pv ∧ metric t = mv) ∧
      ∀ t ∈ seen ++ [s], P t → mv ≤ metric t) := by
  cases cur with
  | none =>
    refine ⟨⟨fun habs => absurd habs (by simp [betterMid]), fun hall => ?_⟩, ?_⟩
    · exact absurd hs (hall s (by simp))
    · intro mv pv hmp
      simp only [betterMid, Option.some.injEq, Prod.mk.injEq] at hmp
      refine ⟨⟨s, by simp, hs, hmp.2, hmp.1⟩, ?_⟩
      intro t ht hP
      rcases List.mem_append.mp ht with hin | hin
      · exact absurd hP (h1.mp rfl t hin)
      · have he : t = s := by simpa using hin
        subst he
        rw [← hmp.1]
  | some best =>
    obtain ⟨bm, bp⟩ := best
    have hcur := h2 bm bp rfl
    by_cases hlt : metric s < bm
    · refine ⟨⟨fun habs => absurd habs (by simp [betterMid, hlt]), fun hall => ?_⟩, ?_⟩
      · exact absurd hs (hall s (by simp))
      · intro mv pv hmp
        simp only [betterMid, hlt, if_true, Option.some.injEq, Prod.mk.injEq] at hmp
        refine ⟨⟨s, by simp, hs, hmp.2, hmp.1⟩, ?_⟩
        intro t ht hP
        rcases List.mem_append.mp ht with hin | hin
        · rw [← hmp.1]
          exact le_of_lt (lt_of_lt_of_le hlt (hcur.2 t hin hP))
        · have he : t = s := by simpa using hin
          subst he
          rw [← hmp.1]
    · refine ⟨⟨fun habs => absurd habs (by simp [betterMid, hlt]), fun hall => ?_⟩, ?_⟩
      · exact absurd hs (hall s (by simp))
      · intro mv pv hmp
        simp only [betterMid, hlt, if_false, Option.some.injEq, Prod.mk.injEq] at hmp
        obtain ⟨⟨t0, ht0, hP0, hpos, hmet⟩, hmin⟩ := h2 mv pv (by simp [hmp.1, hmp.2])
        refine ⟨⟨t0, List.mem_append_left _ ht0, hP0, hpos, hmet⟩, ?_⟩
        intro t ht hP
        rcases List.mem_append.mp ht with hin | hin
        · exact hmin t hin hP
        · have he : t = s := by simpa using hin
          subst he
          rw [← hmp.1]
          exact le_of_not_lt hlt
  
/-- Preservation of the running-best invariant when the new side does
not belong to the class and the best is kept. -/
theorem keepMid_inv (metric : side_t → ℚ) (pos : side_t → Nat) (P : side_t → Prop)
    (seen : List side_t) (cur : Option (ℚ × Nat)) (s : side_t)
    (h1 : cur = none ↔ ∀ t ∈ seen, ¬P t)
    (h2 : ∀ mv pv, cur = some (mv, pv) →
      (∃ t ∈ seen, P t ∧ pos t = pv ∧ metric t = mv) ∧
      ∀ t ∈ seen, P t → mv ≤ metric t)
    (hns : ¬P s) :
    (cur = none ↔ ∀ t ∈ seen ++ [s], ¬P t) ∧
    (∀ mv pv, cur = some (mv, pv) →
      (∃ t ∈ seen ++ [s], P t ∧ pos t = pv ∧ metric t = mv) ∧
      ∀ t ∈ seen ++ [s], P t → mv ≤ metric t) := by
  constructor
  · rw [h1]
    constructor
    · intro hall t ht
      rcases List.mem_append.mp ht with hin | hin
      · exact hall t hin
      · have he : t = s := by simpa using hin
        subst he
        exact hns
    · intro hall t ht
      exact hall t (List.mem_append_left _ ht)
  · intro mv pv hc
    obtain ⟨⟨t0, ht0, hP0, hpos, hmet⟩, hmin⟩ := h2 mv pv hc
    refine ⟨⟨t0, List.mem_append_left _ ht0, hP0, hpos, hmet⟩, ?_⟩
    intro t ht hP
    rcases List.mem_append.mp ht with hin | hin
    · exact hmin t hin hP
    · have he : t = s := by simpa using hin
      subst he
      exact absurd hP hns

/-- The candidate step of ChooseMidPlaneFromList preserves the fold
invariant. -/
theorem midInv_step (m : mapdata_t) (opts : options_t) (node : node_t)
    (seen : List side_t) (st : midbest_t) (hinv : midInv m opts node seen st)
    (s : side_t) :
    midInv m opts node (seen ++ [s]) (midCandStep m opts node st s) := by
  obtain ⟨ha1, ha2, hn1, hn2⟩ := hinv
  unfold midCandStep
  by_cases hb : s.bevel = true
  · rw [if_pos hb]
    have hns : ¬midValidSide m opts node s := fun hv => by
      rw [hv.1] at hb
      exact Bool.noConfusion hb
    have hax := keepMid_inv (midSideMetric m node) (fun t => posNum t.planenum)
      (fun t => midValidSide m opts node t ∧ midSideAxial m t) seen st.axial s
      ha1 ha2 (fun hax => hns hax.1)
    have hany := keepMid_inv (midSideMetric m node) (fun t => posNum t.planenum)
      (fun t => midValidSide m opts node t) seen st.any s hn1 hn2 hns
    exact ⟨hax.1, hax.2, hany.1, hany.2⟩
  · rw [if_neg hb]
    by_cases ho : s.onnode = true
    · rw [if_pos ho]
      have hns : ¬midValidSide m opts node s := fun hv => by
        rw [hv.2.1] at ho
        exact Bool.noConfusion ho
      have hax := keepMid_inv (midSideMetric m node) (fun t => posNum t.planenum)
        (fun t => midValidSide m opts node t ∧ midSideAxial m t) seen st.axial s
        ha1 ha2 (fun hax => hns hax.1)
      have hany := keepMid_inv (midSideMetric m node) (fun t => posNum t.planenum)
        (fun t => midValidSide m opts node t) seen st.any s hn1 hn2 hns
      exact ⟨hax.1, hax.2, hany.1, hany.2⟩
    · rw [if_neg ho]
      simp only []
      by_cases hc : CheckPlaneAgainstVolume m opts (posNum s.planenum) node = true
      · rw [if_neg (by simp [hc] : ¬(!CheckPlaneAgainstVolume m opts
          (posNum s.planenum) node) = true)]
        have hv : midValidSide m opts node s :=
          ⟨Bool.not_eq_true _ ▸ hb, Bool.not_eq_true _ ▸ ho, hc⟩
        have hany := betterMid_inv (midSideMetric m node) (fun t => posNum t.planenum)
          (fun t => midValidSide m opts node t) seen st.any s hn1 hn2 hv
        by_cases hax : (s.get_positive_plane m).get_type.isAxial = true
        · rw [if_pos hax]
          have haxi := betterMid_inv (midSideMetric m node) (fun t => posNum t.planenum)
            (fun t => midValidSide m opts node t ∧ midSideAxial m t) seen st.axial s
            ha1 ha2 ⟨hv, hax⟩
          exact ⟨haxi.1, haxi.2, hany.1, hany.2⟩
        · rw [if_neg hax]
          have haxi := keepMid_inv (midSideMetric m node) (fun t => posNum t.planenum)
            (fun t => midValidSide m opts node t ∧ midSideAxial m t) seen st.axial s
            ha1 ha2 (fun hp => hax hp.2)
          exact ⟨haxi.1, haxi.2, hany.1, hany.2⟩
      · rw [if_pos (by simp [Bool.not_eq_true] at hc ⊢; exact hc : (!CheckPlaneAgainstVolume
          m opts (posNum s.planenum) node) = true)]
        have hns : ¬midValidSide m opts node s := fun hv => hc hv.2.2
        have hax := keepMid_inv (midSideMetric m node) (fun t => posNum t.planenum)
          (fun t => midValidSide m opts node t ∧ midSideAxial m t) seen st.axial s
          ha1 ha2 (fun hp => hns hp.1)
        have hany := keepMid_inv (midSideMetric m node) (fun t => posNum t.planenum)
          (fun t => midValidSide m opts node t) seen st.any s hn1 hn2 hns
        exact ⟨hax.1, hax.2, hany.1, hany.2⟩

/-- The fold of the candidate step over a side list preserves the
invariant, extending the seen prefix. -/
theorem midInv_fold (m : mapdata_t) (opts : options_t) (node : node_t)
    (S : List side_t) :
    ∀ seen st, midInv m opts node seen st →
      midInv m opts node (seen ++ S) (S.foldl (midCandStep m opts node) st) := by
  induction S with
  | nil =>
    intro seen st hinv
    simpa using hinv
  | cons s rest ih =>
    intro seen st hinv
    have hstep := midInv_step m opts node seen st hinv s
    have := ih (seen ++ [s]) (midCandStep m opts node st s) hstep
    simpa [List.append_assoc] using this

/-- The empty fold state satisfies the invariant. -/
theorem midInv_base (m : mapdata_t) (opts : options_t) (node : node_t) :
    midInv m opts node [] ⟨none, none⟩ := by
  refine ⟨by simp, ?_, by simp, ?_⟩
  · intro mv pv hc
    exact Option.noConfusion hc
  · intro mv pv hc
    exact Option.noConfusion hc

/-- C6 amended: among the sides of the brush list, whenever any valid
axial candidate exists, ChooseMidPlaneFromList returns a valid axial
candidate whose metric is minimal among the valid axial candidates;
only when no valid axial candidate exists does it return a valid
candidate of minimal metric overall; with no valid candidate at all it
returns nothing.  Axial candidates therefore win over non-axial ones
even when the non-axial metric is strictly smaller. -/
theorem chooseMidPlane_char (m : mapdata_t) (opts : options_t)
    (brushes : List bspbrush_t) (node : node_t) :
    ((∀ s ∈ brushes.flatMap (fun b => b.sides), ¬midValidSide m opts node s) →
      ChooseMidPlaneFromList m opts brushes node = none) ∧
    ((∃ s ∈ brushes.flatMap (fun b => b.sides),
        midValidSide m opts node s ∧ midSideAxial m s) →
      ∃ s ∈ brushes.flatMap (fun b => b.sides),
        midValidSide m opts node s ∧ midSideAxial m s ∧
        ChooseMidPlaneFromList m opts brushes node = some (posNum s.planenum) ∧
        ∀ t ∈ brushes.flatMap (fun b => b.sides),
          midValidSide m opts node t → midSideAxial m t →
          midSideMetric m node s ≤ midSideMetric m node t) ∧
    (((∃ s ∈ brushes.flatMap (fun b => b.sides), midValidSide m opts node s) ∧
      (∀ s ∈ brushes.flatMap (fun b => b.sides),
        midValidSide m opts node s → ¬midSideAxial m s)) →
      ∃ s ∈ brushes.flatMap (fun b => b.sides),
        midValidSide m opts node s ∧
        ChooseMidPlaneFromList m opts brushes node = some (posNum s.planenum) ∧
        ∀ t ∈ brushes.flatMap (fun b => b.sides),
          midValidSide m opts node t →
          midSideMetric m node s ≤ midSideMetric m node t) := by
  have hinv := midInv_fold m opts node (brushes.flatMap fun b => b.sides) []
    ⟨none, none⟩ (midInv_base m opts node)
  rw [List.nil_append] at hinv
  obtain ⟨ha1, ha2, hn1, hn2⟩ := hinv
  refine ⟨?_, ?_, ?_⟩
  · intro hnone
    have he1 := ha1.mpr (fun s hs hw => hnone s hs hw.1)
    have he2 := hn1.mpr hnone
    unfold ChooseMidPlaneFromList
    simp only []
    simp only [he1, he2, Option.map_none']
  · rintro ⟨s0, hs0, hv0, hax0⟩
    rcases haa : ((brushes.flatMap fun b => b.sides).foldl (midCandStep m opts node)
        ⟨none, none⟩).axial with _ | ⟨mv, pv⟩
    · exact absurd ⟨hv0, hax0⟩ (ha1.mp haa s0 hs0)
    · obtain ⟨⟨sw, hsw, hPw, hposw, hmetw⟩, hmin⟩ := ha2 mv pv haa
      refine ⟨sw, hsw, hPw.1, hPw.2, ?_, ?_⟩
      · unfold ChooseMidPlaneFromList
        simp only []
        simp only [haa, hposw]
      · intro t ht hvt haxt
        rw [hmetw]
        exact hmin t ht ⟨hvt, haxt⟩
  · rintro ⟨⟨s0, hs0, hv0⟩, hnoax⟩
    have haxnone := ha1.mpr (fun t htt hw => hnoax t htt hw.1 hw.2)
    rcases han : ((brushes.flatMap fun b => b.sides).foldl (midCandStep m opts node)
        ⟨none, none⟩).any with _ | ⟨mv, pv⟩
    · exact absurd hv0 (hn1.mp han s0 hs0)
    · obtain ⟨⟨sw, hsw, hPw, hposw, hmetw⟩, hmin⟩ := hn2 mv pv han
      refine ⟨sw, hsw, hPw, ?_, ?_⟩
      · unfold ChooseMidPlaneFromList
        simp only []
        simp only [haxnone, han, Option.map_some', hposw]
      · intro t ht hvt
        rw [hmetw]
        exact hmin t ht hvt

/-- Witness for the C6 theorem at the concrete candidate data. -/
theorem chooseMidPlane_char_inst :
    ∃ s ∈ [candBrush].flatMap (fun b => b.sides),
      midValidSide mapC opts0 nodeC s ∧ midSideAxial mapC s ∧
      ChooseMidPlaneFromList mapC opts0 [candBrush] nodeC = some (posNum s.planenum) ∧
      ∀ t ∈ [candBrush].flatMap (fun b => b.sides),
        midValidSide mapC opts0 nodeC t → midSideAxial mapC t →
        midSideMetric mapC nodeC s ≤ midSideMetric mapC nodeC t :=
  (chooseMidPlane_char mapC opts0 [candBrush] nodeC).2.1
    ⟨⟨0, [], 0, false, false, false, true⟩,
     by with_unfolding_all decide,
     by unfold midValidSide; with_unfolding_all decide,
     by unfold midSideAxial; with_unfolding_all decide⟩
